import Mathlib

/-!
# AES-128 DMA bring-up harness

A shallow embedding of the two bare-metal test programs of the repository,
`vitis_bare_metal_c/bare_metal_driver.c` (the 4x repeated block back-pressure
test) and `vitis_bare_metal_c/dma_axis_fifo_vitis_test.c` (the all-0xFF debug
program), together with proofs about the order of their driver calls and about
their buffer handling.

Modelling conventions:

* bytes are natural numbers, buffers are lists of bytes;
* every externally visible action of a program (console output, host access to
  one of the DMA buffers, cache maintenance, DMA driver call, register access)
  is recorded, in program order, in the `trace` field of the machine state;
* the answers of the environment (UART input, AES status register, DMA busy
  flag, data streamed back by the device) are finite lists consumed front to
  back.  A polling loop that uses up its list without seeing the answer it waits
  for is still spinning when the observation ends: the run is then reported as
  `Except.error` carrying the state reached so far;
* the hardware is a collaborator, not part of the programs: the cache calls
  only appear in the trace, and the bytes of a receive transfer are in
  `RxBuffer` from the moment the receive direction answers not-busy;
* `memcmp` is taken to read every byte of the range it compares.
-/

namespace AesDma

/-! ## Events and machine state -/

/-- Memory regions the host touches: the two file-scope DMA buffers and the
arrays local to a function. -/
inductive Buf
  | TxBuffer
  | RxBuffer
  | local_array
  deriving DecidableEq, Repr

/-- Direction argument of the DMA driver calls. -/
inductive Dir
  | XAXIDMA_DMA_TO_DEVICE
  | XAXIDMA_DEVICE_TO_DMA
  deriving DecidableEq, Repr

/-- Observable actions, named after the call that performs them.

* `xil_printf`: a console line whose text does not depend on data;
* `inbyte c`: a call of `inbyte()` that returned the character `c`;
* `hostWrite b i`, `hostRead b i`: a host store to, resp. load from, byte `i`
  of region `b`;
* `XAxiDma_Busy d busy`: a call of `XAxiDma_Busy` for direction `d` and
  whether its result was nonzero;
* `Xil_Out32 off val`, `Xil_In32 off val`: a register access at
  `AES_BASE + off`, with the value written, resp. read;
* `gate_return`: the return of `wait_for_ila_setup`, a marker rather than an
  action of the program;
* `block_result i pass`: the `xil_printf` of `run_backpressure_test` that
  prints the verdict of block `i`, `[PASS]` when `pass` holds, else `[FAIL]`;
* `compare_result equal`: the `xil_printf` of the second program that prints
  `RESULT: SUCCESS` when `equal` holds, else `RESULT: FAILURE`. -/
inductive Event
  | xil_printf
  | inbyte (c : Nat)
  | hostWrite (b : Buf) (i : Nat)
  | hostRead (b : Buf) (i : Nat)
  | Xil_DCacheFlushRange (b : Buf) (len : Nat)
  | Xil_DCacheInvalidateRange (b : Buf) (len : Nat)
  | XAxiDma_SimpleTransfer (b : Buf) (len : Nat) (d : Dir)
  | XAxiDma_Busy (d : Dir) (busy : Bool)
  | XAxiDma_LookupConfig
  | XAxiDma_CfgInitialize
  | XAxiDma_IntrDisable (d : Dir)
  | Xil_Out32 (off val : Nat)
  | Xil_In32 (off val : Nat)
  | gate_return
  | block_result (i : Nat) (pass : Bool)
  | compare_result (equal : Bool)
  deriving DecidableEq, Repr

/-- Machine state: the two DMA buffers, the trace so far, and what is left of
the environment's answers. -/
structure St where
  TxBuffer : List Nat
  RxBuffer : List Nat
  trace : List Event
  uart : List Nat
  aesStatus : List Nat
  dmaBusy : List Bool
  dmaData : List Nat
  rxLen : Nat
  deriving Repr

/-- The environment of one run: initial buffer contents and the answers the
hardware and the operator will give. -/
structure Env where
  tx0 : List Nat
  rx0 : List Nat
  uart : List Nat
  aesStatus : List Nat
  dmaBusy : List Bool
  dmaData : List Nat
  deriving Repr

/-- State at program entry. -/
def boot (env : Env) : St :=
  { TxBuffer := env.tx0, RxBuffer := env.rx0, trace := [],
    uart := env.uart, aesStatus := env.aesStatus,
    dmaBusy := env.dmaBusy, dmaData := env.dmaData, rxLen := 0 }

/-- Trace of a run, whether it ran to completion or was still polling. -/
def traceOf : Except St St → List Event
  | .ok s => s.trace
  | .error s => s.trace

/-- State a run ended in. -/
def stateOf : Except St St → St
  | .ok s => s
  | .error s => s

/-- Whether the run returned from `main`. -/
def completed : Except St St → Bool
  | .ok _ => true
  | .error _ => false

/-! ## Primitive actions -/

/-- Record actions in the trace. -/
def emit (es : List Event) (s : St) : St :=
  { s with trace := s.trace ++ es }

/-- Host store of one byte. -/
def store (b : Buf) (i v : Nat) (s : St) : St :=
  match b with
  | .TxBuffer => emit [.hostWrite b i] { s with TxBuffer := s.TxBuffer.set i v }
  | .RxBuffer => emit [.hostWrite b i] { s with RxBuffer := s.RxBuffer.set i v }
  | .local_array => emit [.hostWrite b i] s

/-- Value a host load of one byte returns. -/
def load (b : Buf) (i : Nat) (s : St) : Nat :=
  match b with
  | .TxBuffer => s.TxBuffer.getD i 0
  | .RxBuffer => s.RxBuffer.getD i 0
  | .local_array => 0

/-- The loop `for (int i = 0; i < n; i++) body`. -/
def forLoop (n : Nat) (body : Nat → St → St) (s : St) : St :=
  (List.range n).foldl (fun acc i => body i acc) s

/-- The call `memcpy(&dst[off], src, n)` with `src` a local array. -/
def memcpy (dst : Buf) (off : Nat) (src : List Nat) (n : Nat) (s : St) : St :=
  forLoop n (fun j => store dst (off + j) (src.getD j 0)) s

/-- The call `memset(dst, c, n)`. -/
def memset (dst : Buf) (c n : Nat) (s : St) : St :=
  forLoop n (fun j => store dst j c) s

/-- Bytes a finished receive transfer of `len` bytes leaves in the buffer. -/
def deposit (buf data : List Nat) (len : Nat) : List Nat :=
  (List.range buf.length).map
    (fun i => if i < len then data.getD i (buf.getD i 0) else buf.getD i 0)

/-- The call `XAxiDma_SimpleTransfer(&AxiDma, buf, len, d)`. -/
def XAxiDma_SimpleTransfer (b : Buf) (len : Nat) (d : Dir) (s : St) : St :=
  match d with
  | .XAXIDMA_DEVICE_TO_DMA =>
      emit [.XAxiDma_SimpleTransfer b len d] { s with rxLen := len }
  | .XAXIDMA_DMA_TO_DEVICE => emit [.XAxiDma_SimpleTransfer b len d] s

/-- The polls of `while (XAxiDma_Busy(&AxiDma, d));` against the remaining
answers, and the answers left over when the loop exits. -/
def busy_polls (d : Dir) : List Bool → List Event × Option (List Bool)
  | [] => ([], none)
  | true :: rest => (Event.XAxiDma_Busy d true :: (busy_polls d rest).1, (busy_polls d rest).2)
  | false :: rest => ([Event.XAxiDma_Busy d false], some rest)

/-- What the device has done by the time direction `d` is idle: a finished
receive transfer has filled the inbound buffer. -/
def transfer_done (d : Dir) (s : St) : St :=
  match d with
  | .XAXIDMA_DEVICE_TO_DMA => { s with RxBuffer := deposit s.RxBuffer s.dmaData s.rxLen }
  | .XAXIDMA_DMA_TO_DEVICE => s

/-- The loop `while (XAxiDma_Busy(&AxiDma, d));`. -/
def wait_not_busy (d : Dir) (s : St) : Except St St :=
  match busy_polls d s.dmaBusy with
  | (ev, some rest) => .ok (transfer_done d { s with trace := s.trace ++ ev, dmaBusy := rest })
  | (ev, none) => .error { s with trace := s.trace ++ ev, dmaBusy := [] }

/-- The reads of a loop that calls `inbyte()` until it returns a nonzero
character, and the input left over when the loop exits. -/
def inbyte_polls : List Nat → List Event × Option (List Nat)
  | [] => ([], none)
  | c :: rest =>
      if c = 0 then (Event.inbyte c :: (inbyte_polls rest).1, (inbyte_polls rest).2)
      else ([Event.inbyte c], some rest)

/-- The loop `while (inbyte() == 0);`, in the second program written
`char c = 0; while (c == 0) { c = inbyte(); }`. -/
def wait_for_key (s : St) : Except St St :=
  match inbyte_polls s.uart with
  | (ev, some rest) => .ok { s with trace := s.trace ++ ev, uart := rest }
  | (ev, none) => .error { s with trace := s.trace ++ ev, uart := [] }

/-- The reads of `while ((Xil_In32(AES_BASE + 0x18) & 0x02) == 0);`. -/
def status_polls : List Nat → List Event × Option (List Nat)
  | [] => ([], none)
  | v :: rest =>
      if v &&& 0x02 = 0 then
        (Event.Xil_In32 0x18 v :: (status_polls rest).1, (status_polls rest).2)
      else ([Event.Xil_In32 0x18 v], some rest)

/-- The loop `while ((Xil_In32(AES_BASE + 0x18) & 0x02) == 0);`. -/
def wait_key_expansion (s : St) : Except St St :=
  match status_polls s.aesStatus with
  | (ev, some rest) => .ok { s with trace := s.trace ++ ev, aesStatus := rest }
  | (ev, none) => .error { s with trace := s.trace ++ ev, aesStatus := [] }

/-- Result of `memcmp(&b[off], ref, n) == 0` with `ref` a local array. -/
def memcmp_eq (b : Buf) (off : Nat) (ref : List Nat) (n : Nat) (s : St) : Bool :=
  (List.range n).all (fun j => load b (off + j) s == ref.getD j 0)

/-- Host reads `memcmp(&b[off], ref, n)` performs on buffer `b`. -/
def memcmp_reads (b : Buf) (off n : Nat) : List Event :=
  (List.range n).map (fun j => Event.hostRead b (off + j))

/-! ## bare_metal_driver.c -/

namespace BareMetalDriver

/-- The function `wait_for_ila_setup` of bare_metal_driver.c. -/
def wait_for_ila_setup (s : St) : Except St St := do
  let s := emit [.xil_printf, .xil_printf, .xil_printf, .xil_printf] s
  let s ← wait_for_key s
  let s := emit [.xil_printf] s
  return emit [.gate_return] s

/-- The function `print_hex(label, data, len)` with `data = &b[off]`. -/
def print_hex (b : Buf) (off len : Nat) (s : St) : St :=
  let s := emit [.xil_printf] s
  let s := forLoop len (fun i => emit [.hostRead b (off + i), .xil_printf]) s
  emit [.xil_printf] s

/-- The local array `pattern` of `run_backpressure_test`. -/
def pattern : List Nat :=
  [0xFF, 0xEE, 0xDD, 0xCC, 0xBB, 0xAA, 0x99, 0x88,
   0x77, 0x66, 0x55, 0x44, 0x33, 0x22, 0x11, 0x00]

/-- The local array `gold_original` of `run_backpressure_test`. -/
def gold_original : List Nat :=
  [0xc8, 0xa3, 0x31, 0xff, 0x8e, 0xdd, 0x3d, 0xb1,
   0x75, 0xe1, 0x54, 0x5d, 0xbe, 0xfb, 0x76, 0x0b]

/-- The local array `gold_reversed` of `run_backpressure_test`. -/
def gold_reversed : List Nat :=
  [0x0b, 0x76, 0xfb, 0xbe,
   0x5d, 0x54, 0xe1, 0x75,
   0xb1, 0x3d, 0xdd, 0x8e,
   0xff, 0x31, 0xa3, 0xc8]

/-- The outbound fill loop:
`for (int i = 0; i < 4; i++) memcpy(&TxBuffer[i*16], pattern, 16);`. -/
def fill_tx (pat : List Nat) (s : St) : St :=
  forLoop 4 (fun i => memcpy .TxBuffer (i * 16) pat 16) s

/-- The value of `match` for block `i`:
`memcmp(&RxBuffer[i*16], gold_reversed, 16) == 0`. -/
def block_match (i : Nat) (s : St) : Bool :=
  memcmp_eq .RxBuffer (i * 16) gold_reversed 16 s

/-- Body of the per-block report loop of `run_backpressure_test`. -/
def report_block (i : Nat) (s : St) : St :=
  let s := emit [.xil_printf] s
  let s := print_hex .TxBuffer (i * 16) 16 s
  let s := print_hex .RxBuffer (i * 16) 16 s
  let s := emit (memcmp_reads .RxBuffer (i * 16) 16) s
  emit [.block_result i (block_match i s)] s

/-- The function `run_backpressure_test`. -/
def run_backpressure_test (s : St) : Except St St := do
  let s := fill_tx pattern s
  let s := memset .RxBuffer 0 64 s
  let s := emit [.Xil_DCacheFlushRange .TxBuffer 64] s
  let s := emit [.Xil_DCacheInvalidateRange .RxBuffer 64] s
  let s := XAxiDma_SimpleTransfer .RxBuffer 64 .XAXIDMA_DEVICE_TO_DMA s
  let s := XAxiDma_SimpleTransfer .TxBuffer 64 .XAXIDMA_DMA_TO_DEVICE s
  let s ← wait_not_busy .XAXIDMA_DMA_TO_DEVICE s
  let s ← wait_not_busy .XAXIDMA_DEVICE_TO_DMA s
  let s := emit [.Xil_DCacheInvalidateRange .RxBuffer 64] s
  let s := emit [.xil_printf, .xil_printf] s
  let s := print_hex .local_array 0 16 s
  let s := emit [.xil_printf] s
  let s := print_hex .local_array 0 16 s
  return forLoop 4 report_block s

/-- The function `main` of bare_metal_driver.c. -/
def main (env : Env) : Except St St := do
  let s := boot env
  let s := emit [.xil_printf] s
  let s := emit [.XAxiDma_LookupConfig, .XAxiDma_CfgInitialize,
                 .XAxiDma_IntrDisable .XAXIDMA_DEVICE_TO_DMA,
                 .XAxiDma_IntrDisable .XAXIDMA_DMA_TO_DEVICE] s
  let s := emit [.Xil_Out32 0x00 0, .Xil_Out32 0x04 0, .Xil_Out32 0x08 0,
                 .Xil_Out32 0x0C 0, .Xil_Out32 0x14 0x1, .Xil_Out32 0x14 0x0] s
  let s ← wait_key_expansion s
  let s ← wait_for_ila_setup s
  let s ← run_backpressure_test s
  return emit [.xil_printf] s

end BareMetalDriver

/-! ## dma_axis_fifo_vitis_test.c -/

namespace DmaAxisFifoTest

/-- The macro `MEM_SIZE`. -/
def MEM_SIZE : Nat := 32

/-- The function `wait_for_ila_setup` of dma_axis_fifo_vitis_test.c. -/
def wait_for_ila_setup (s : St) : Except St St := do
  let s := emit (List.replicate 11 .xil_printf) s
  let s ← wait_for_key s
  let s := emit [.xil_printf] s
  return emit [.gate_return] s

/-- The function `print_buffer(Buffer, Length, Label)`. -/
def print_buffer (b : Buf) (len : Nat) (s : St) : St :=
  let s := emit [.xil_printf] s
  let s := forLoop len (fun i s =>
    let s := emit [.hostRead b i, .xil_printf] s
    if (i + 1) % 16 = 0 then emit [.xil_printf] s else s) s
  emit [.xil_printf] s

/-- The buffer preparation loop of `main`:
`TxBuffer[i] = 0xFF; RxBuffer[i] = 0x00;` for `i < MEM_SIZE`. -/
def prepare_buffers (s : St) : St :=
  forLoop MEM_SIZE (fun i s => store .RxBuffer i 0x00 (store .TxBuffer i 0xFF s)) s

/-- Result of `memcmp(TxBuffer, RxBuffer, MEM_SIZE) == 0`. -/
def buffers_equal (s : St) : Bool :=
  (List.range MEM_SIZE).all (fun j => load .TxBuffer j s == load .RxBuffer j s)

/-- Host reads of `memcmp(TxBuffer, RxBuffer, MEM_SIZE)`. -/
def compare_reads : List Event :=
  (List.range MEM_SIZE).flatMap
    (fun j => [Event.hostRead .TxBuffer j, Event.hostRead .RxBuffer j])

/-- The function `main` of dma_axis_fifo_vitis_test.c. -/
def main (env : Env) : Except St St := do
  let s := boot env
  let s := emit [.xil_printf] s
  let s := emit [.XAxiDma_LookupConfig, .XAxiDma_CfgInitialize,
                 .XAxiDma_IntrDisable .XAXIDMA_DEVICE_TO_DMA,
                 .XAxiDma_IntrDisable .XAXIDMA_DMA_TO_DEVICE] s
  let s := prepare_buffers s
  let s := print_buffer .TxBuffer MEM_SIZE s
  let s := print_buffer .RxBuffer MEM_SIZE s
  let s := emit [.Xil_DCacheFlushRange .TxBuffer MEM_SIZE] s
  let s := emit [.Xil_DCacheInvalidateRange .RxBuffer MEM_SIZE] s
  let s ← wait_for_ila_setup s
  let s := XAxiDma_SimpleTransfer .RxBuffer MEM_SIZE .XAXIDMA_DEVICE_TO_DMA s
  let s := XAxiDma_SimpleTransfer .TxBuffer MEM_SIZE .XAXIDMA_DMA_TO_DEVICE s
  let s ← wait_not_busy .XAXIDMA_DMA_TO_DEVICE s
  let s ← wait_not_busy .XAXIDMA_DEVICE_TO_DMA s
  let s := emit [.Xil_DCacheInvalidateRange .RxBuffer MEM_SIZE] s
  let s := print_buffer .RxBuffer MEM_SIZE s
  let s := emit compare_reads s
  let s := emit [.compare_result (buffers_equal s)] s
  return emit [.xil_printf] s

end DmaAxisFifoTest

/-! ## Classes of events used to state the ordering properties -/

/-- Start of a DMA transfer in either direction. -/
def isStart : Event → Bool
  | .XAxiDma_SimpleTransfer _ _ _ => true
  | _ => false

/-- Start of a host-to-device (send) transfer. -/
def isSendStart : Event → Bool
  | .XAxiDma_SimpleTransfer _ _ .XAXIDMA_DMA_TO_DEVICE => true
  | _ => false

/-- Start of a device-to-host (receive) transfer. -/
def isRecvStart : Event → Bool
  | .XAxiDma_SimpleTransfer _ _ .XAXIDMA_DEVICE_TO_DMA => true
  | _ => false

/-- A busy poll of either direction. -/
def isPoll : Event → Bool
  | .XAxiDma_Busy _ _ => true
  | _ => false

/-- Host store to buffer `b`. -/
def isWrite (b : Buf) : Event → Bool
  | .hostWrite b1 _ => b1 == b
  | _ => false

/-- Host load from buffer `b`. -/
def isRead (b : Buf) : Event → Bool
  | .hostRead b1 _ => b1 == b
  | _ => false

/-- A cache-maintenance call. -/
def isCacheOp : Event → Bool
  | .Xil_DCacheFlushRange _ _ => true
  | .Xil_DCacheInvalidateRange _ _ => true
  | _ => false

/-- Console output, including the lines that print a verdict. -/
def isConsole : Event → Bool
  | .xil_printf => true
  | .block_result _ _ => true
  | .compare_result _ => true
  | _ => false

/-- Return of the debug gate `wait_for_ila_setup`. -/
def isGateReturn : Event → Bool
  | .gate_return => true
  | _ => false

/-- Actions that touch neither a DMA buffer, nor the cache, nor the DMA
channel, nor mark the gate return: console output, operator input, driver
set-up and AES register accesses. -/
def isSetup : Event → Bool
  | .xil_printf => true
  | .inbyte _ => true
  | .XAxiDma_LookupConfig => true
  | .XAxiDma_CfgInitialize => true
  | .XAxiDma_IntrDisable _ => true
  | .Xil_Out32 _ _ => true
  | .Xil_In32 _ _ => true
  | _ => false

/-- Actions of the reporting code: console output and host loads. -/
def isReport : Event → Bool
  | .xil_printf => true
  | .hostRead _ _ => true
  | .block_result _ _ => true
  | .compare_result _ => true
  | _ => false

/-- Host stores and cache maintenance: what buffer preparation consists of. -/
def isPrepare : Event → Bool
  | .hostWrite _ _ => true
  | .Xil_DCacheFlushRange _ _ => true
  | .Xil_DCacheInvalidateRange _ _ => true
  | _ => false

/-- Set-up actions and host accesses to the buffers. -/
def isInit : Event → Bool
  | .hostWrite _ _ => true
  | .hostRead _ _ => true
  | e => isSetup e

/-- A console line that states a verdict. -/
def isVerdict : Event → Bool
  | .block_result _ _ => true
  | .compare_result _ => true
  | _ => false

/-! ## Event lists of the straight-line parts -/

/-- How far the transfer section of a run got: still polling the send
direction after `n` busy answers, still polling the receive direction after
`m` busy answers, or past both polling loops. -/
inductive Progress
  | send_busy (n : Nat)
  | recv_busy (n m : Nat)
  | complete (n m : Nat)
  deriving DecidableEq, Repr

/-- Whether both polling loops were left. -/
def Progress.isComplete : Progress → Bool
  | .complete _ _ => true
  | _ => false

/-- Polls of the send direction seen so far. -/
def send_poll_events : Progress → List Event
  | .send_busy n => List.replicate n (.XAxiDma_Busy .XAXIDMA_DMA_TO_DEVICE true)
  | .recv_busy n _ =>
      List.replicate n (.XAxiDma_Busy .XAXIDMA_DMA_TO_DEVICE true) ++
        [.XAxiDma_Busy .XAXIDMA_DMA_TO_DEVICE false]
  | .complete n _ =>
      List.replicate n (.XAxiDma_Busy .XAXIDMA_DMA_TO_DEVICE true) ++
        [.XAxiDma_Busy .XAXIDMA_DMA_TO_DEVICE false]

/-- Polls of the receive direction seen so far. -/
def recv_poll_events : Progress → List Event
  | .send_busy _ => []
  | .recv_busy _ m => List.replicate m (.XAxiDma_Busy .XAXIDMA_DEVICE_TO_DMA true)
  | .complete _ m =>
      List.replicate m (.XAxiDma_Busy .XAXIDMA_DEVICE_TO_DMA true) ++
        [.XAxiDma_Busy .XAXIDMA_DEVICE_TO_DMA false]

/-- Events of the transfer section of a round trip of `len` bytes that got as
far as `p`: the two starts and the polls. -/
def transfer_events (len : Nat) (p : Progress) : List Event :=
  [.XAxiDma_SimpleTransfer .RxBuffer len .XAXIDMA_DEVICE_TO_DMA,
   .XAxiDma_SimpleTransfer .TxBuffer len .XAXIDMA_DMA_TO_DEVICE] ++
    send_poll_events p ++ recv_poll_events p

/-- The two transfer starts of a round trip of `len` bytes. -/
def start_events (len : Nat) : List Event :=
  [.XAxiDma_SimpleTransfer .RxBuffer len .XAXIDMA_DEVICE_TO_DMA,
   .XAxiDma_SimpleTransfer .TxBuffer len .XAXIDMA_DMA_TO_DEVICE]

/-- The polls of a round trip whose two polling loops both exited: `n` busy
answers and a not-busy answer for the send direction, then `m` busy answers
and a not-busy answer for the receive direction. -/
def finished_polls (n m : Nat) : List Event :=
  List.replicate n (.XAxiDma_Busy .XAXIDMA_DMA_TO_DEVICE true) ++
    [.XAxiDma_Busy .XAXIDMA_DMA_TO_DEVICE false] ++
    List.replicate m (.XAxiDma_Busy .XAXIDMA_DEVICE_TO_DMA true) ++
    [.XAxiDma_Busy .XAXIDMA_DEVICE_TO_DMA false]

/-- Events of `memcpy(&dst[off], src, n)`. -/
def memcpy_events (dst : Buf) (off n : Nat) : List Event :=
  (List.range n).flatMap (fun j => [Event.hostWrite dst (off + j)])

/-- Events of `memset(dst, c, n)`. -/
def memset_events (dst : Buf) (n : Nat) : List Event :=
  (List.range n).flatMap (fun j => [Event.hostWrite dst j])

namespace BareMetalDriver

/-- Events of `print_hex(label, &b[off], len)`. -/
def print_hex_events (b : Buf) (off len : Nat) : List Event :=
  [.xil_printf] ++ (List.range len).flatMap (fun i => [Event.hostRead b (off + i), .xil_printf])
    ++ [.xil_printf]

/-- Events of the outbound fill loop. -/
def fill_events : List Event :=
  (List.range 4).flatMap (fun i => memcpy_events .TxBuffer (i * 16) 16)

/-- Events of one iteration of the report loop, with verdict `m`. -/
def report_block_events (i : Nat) (m : Bool) : List Event :=
  [.xil_printf] ++ print_hex_events .TxBuffer (i * 16) 16 ++
    print_hex_events .RxBuffer (i * 16) 16 ++ memcmp_reads .RxBuffer (i * 16) 16 ++
    [.block_result i m]

/-- Events of the report of `run_backpressure_test`, from its banner to the
last verdict, with the four verdicts. -/
def report_events (m0 m1 m2 m3 : Bool) : List Event :=
  [.xil_printf, .xil_printf] ++ print_hex_events .local_array 0 16 ++ [.xil_printf] ++
    print_hex_events .local_array 0 16 ++
    report_block_events 0 m0 ++ report_block_events 1 m1 ++
    report_block_events 2 m2 ++ report_block_events 3 m3

/-- Events of `run_backpressure_test` before the two transfer starts. -/
def prepare_events : List Event :=
  fill_events ++ memset_events .RxBuffer 64 ++
    [.Xil_DCacheFlushRange .TxBuffer 64, .Xil_DCacheInvalidateRange .RxBuffer 64]

end BareMetalDriver

namespace DmaAxisFifoTest

/-- Events of `print_buffer(b, len, label)`. -/
def print_buffer_events (b : Buf) (len : Nat) : List Event :=
  [.xil_printf] ++
    (List.range len).flatMap (fun i =>
      [Event.hostRead b i, .xil_printf] ++ (if (i + 1) % 16 = 0 then [.xil_printf] else []))
    ++ [.xil_printf]

/-- Events of the buffer preparation loop. -/
def prepare_events : List Event :=
  (List.range MEM_SIZE).flatMap
    (fun i => [Event.hostWrite .TxBuffer i, Event.hostWrite .RxBuffer i])

/-- Events of `main` up to the last action before the outbound cache flush. -/
def init_events : List Event :=
  [.xil_printf, .XAxiDma_LookupConfig, .XAxiDma_CfgInitialize,
   .XAxiDma_IntrDisable .XAXIDMA_DEVICE_TO_DMA, .XAxiDma_IntrDisable .XAXIDMA_DMA_TO_DEVICE] ++
    prepare_events ++ print_buffer_events .TxBuffer MEM_SIZE ++
    print_buffer_events .RxBuffer MEM_SIZE

/-- Events from the first result print to the last line `main` prints, with
the outcome `m` of the comparison. -/
def report_events (m : Bool) : List Event :=
  print_buffer_events .RxBuffer MEM_SIZE ++ compare_reads ++ [.compare_result m, .xil_printf]

end DmaAxisFifoTest

/-! ## The transfer session state machine of the spec -/

/-- The states of a transfer session, in the order section 4.2 of the spec
lists them: `Idle → ReceiveArmed → SendArmed → AwaitingCompletion → Complete`. -/
inductive Phase
  | Idle
  | ReceiveArmed
  | SendArmed
  | AwaitingCompletion
  | Complete
  deriving DecidableEq, Repr

/-- Position of a state in the chain of the spec. -/
def Phase.rank : Phase → Nat
  | .Idle => 0
  | .ReceiveArmed => 1
  | .SendArmed => 2
  | .AwaitingCompletion => 3
  | .Complete => 4

/-- What the driver calls made so far show of a session: which directions were
started, whether completion polling has begun, and which directions have
answered not-busy. -/
structure Session where
  rxStarted : Bool
  txStarted : Bool
  polled : Bool
  txIdle : Bool
  rxIdle : Bool
  deriving DecidableEq, Repr

/-- No driver call made yet. -/
def Session.idle : Session :=
  { rxStarted := false, txStarted := false, polled := false, txIdle := false,
    rxIdle := false }

/-- Effect of one action on what is known of the session. Only transfer starts
and busy polls matter. -/
def Session.observe (σ : Session) : Event → Session
  | .XAxiDma_SimpleTransfer _ _ .XAXIDMA_DEVICE_TO_DMA => { σ with rxStarted := true }
  | .XAxiDma_SimpleTransfer _ _ .XAXIDMA_DMA_TO_DEVICE => { σ with txStarted := true }
  | .XAxiDma_Busy .XAXIDMA_DMA_TO_DEVICE b =>
      { σ with polled := true, txIdle := σ.txIdle || !b }
  | .XAxiDma_Busy .XAXIDMA_DEVICE_TO_DMA b =>
      { σ with polled := true, rxIdle := σ.rxIdle || !b }
  | _ => σ

/-- The state of the spec a session is in: `Complete` once both directions
have answered not-busy, else `AwaitingCompletion` once polling has begun, else
`SendArmed` once the send direction is started, else `ReceiveArmed` once the
receive direction is started, else `Idle`. -/
def Session.phase (σ : Session) : Phase :=
  if σ.txIdle && σ.rxIdle then .Complete
  else if σ.polled then .AwaitingCompletion
  else if σ.txStarted then .SendArmed
  else if σ.rxStarted then .ReceiveArmed
  else .Idle

/-- The session after the actions of a trace. -/
def sessionAfter (t : List Event) : Session :=
  t.foldl Session.observe Session.idle

/-- Action `e`, taken in session `σ`, keeps the state or moves it to the next
one of the chain, and prints a verdict only in `Complete`. -/
def Session.stepOk (σ : Session) (e : Event) : Bool :=
  ((σ.observe e).phase.rank == σ.phase.rank ||
    (σ.observe e).phase.rank == σ.phase.rank + 1) &&
  (!isVerdict e || σ.phase == .Complete)

/-- Every action of the list is a legal step, starting from session `σ`. -/
def Session.stepsOk : Session → List Event → Bool
  | _, [] => true
  | σ, e :: t => σ.stepOk e && Session.stepsOk (σ.observe e) t

/-! ## When a run returns -/

/-- The environment lets bare_metal_driver.c run to its end: some status read
has the done bit set, some console byte is nonzero, and the DMA channel answers
not-busy at least twice. -/
def BareMetalDriver.answers_suffice (env : Env) : Bool :=
  env.aesStatus.any (fun v => v &&& 0x02 != 0) && env.uart.any (fun c => c != 0) &&
    decide (2 ≤ env.dmaBusy.count false)

/-- The environment lets dma_axis_fifo_vitis_test.c run to its end: some
console byte is nonzero and the DMA channel answers not-busy at least twice. -/
def DmaAxisFifoTest.answers_suffice (env : Env) : Bool :=
  env.uart.any (fun c => c != 0) && decide (2 ≤ env.dmaBusy.count false)

/-! ## The expected blocks as the spec writes them -/

/-- The 16 bytes a 32-digit hexadecimal string denotes, first byte first; the
string is given as the number it spells. -/
def block_of_hex (n : Nat) : List Nat :=
  (List.range 16).map (fun i => n / 256 ^ (15 - i) % 256)

/-! ## Concrete environments -/

/-- A run in which every loop exits at its first poll: zero-initialised
128-byte buffers, key expansion reported done, the operator pressing the space
bar, an idle DMA channel, and the device returning `gold_original` as the first
block and `gold_reversed` as the other three. -/
def sample_env : Env :=
  { tx0 := List.replicate 128 0, rx0 := List.replicate 128 0,
    uart := [0x20], aesStatus := [0x02], dmaBusy := [false, false],
    dmaData := BareMetalDriver.gold_original ++ BareMetalDriver.gold_reversed ++
      BareMetalDriver.gold_reversed ++ BareMetalDriver.gold_reversed }

/-- The same run for the 32-byte buffers of dma_axis_fifo_vitis_test.c. -/
def sample_env32 : Env :=
  { tx0 := List.replicate 32 0, rx0 := List.replicate 32 0,
    uart := [0x20], aesStatus := [], dmaBusy := [false, false],
    dmaData := List.replicate 32 0 }

end AesDma

/-! # Proofs -/

namespace AesDma

/-! ## Traces of the primitive actions -/

theorem emit_trace (es : List Event) (s : St) : (emit es s).trace = s.trace ++ es := rfl

theorem emit_tx (es : List Event) (s : St) : (emit es s).TxBuffer = s.TxBuffer := rfl

theorem emit_rx (es : List Event) (s : St) : (emit es s).RxBuffer = s.RxBuffer := rfl

theorem forLoop_zero (body : Nat → St → St) (s : St) : forLoop 0 body s = s := rfl

theorem forLoop_succ (n : Nat) (body : Nat → St → St) (s : St) :
    forLoop (n + 1) body s = body n (forLoop n body s) := by
  simp [forLoop, List.range_succ, List.foldl_append]

theorem forLoop_trace (ev : Nat → List Event) (body : Nat → St → St)
    (h : ∀ i s, (body i s).trace = s.trace ++ ev i) (n : Nat) (s : St) :
    (forLoop n body s).trace = s.trace ++ (List.range n).flatMap ev := by
  induction n with
  | zero => simp [forLoop_zero]
  | succ n ih => simp [forLoop_succ, h, ih, List.range_succ, List.flatMap_append]

theorem store_trace (b : Buf) (i v : Nat) (s : St) :
    (store b i v s).trace = s.trace ++ [Event.hostWrite b i] := by
  cases b <;> rfl

theorem memcpy_trace (dst : Buf) (off : Nat) (src : List Nat) (n : Nat) (s : St) :
    (memcpy dst off src n s).trace = s.trace ++ memcpy_events dst off n :=
  forLoop_trace (fun j => [Event.hostWrite dst (off + j)]) _
    (fun _ _ => store_trace _ _ _ _) n s

theorem memset_trace (dst : Buf) (c n : Nat) (s : St) :
    (memset dst c n s).trace = s.trace ++ memset_events dst n :=
  forLoop_trace (fun j => [Event.hostWrite dst j]) _
    (fun _ _ => store_trace _ _ _ _) n s

theorem transfer_trace (b : Buf) (len : Nat) (d : Dir) (s : St) :
    (XAxiDma_SimpleTransfer b len d s).trace =
      s.trace ++ [Event.XAxiDma_SimpleTransfer b len d] := by
  cases d <;> rfl

/-! ## The polling loops -/

theorem busy_polls_spec (d : Dir) (l : List Bool) :
    ∃ n, busy_polls d l = (List.replicate n (Event.XAxiDma_Busy d true), none) ∨
      ∃ rest, busy_polls d l =
        (List.replicate n (Event.XAxiDma_Busy d true) ++ [Event.XAxiDma_Busy d false],
          some rest) := by
  induction l with
  | nil => exact ⟨0, Or.inl rfl⟩
  | cons b t ih =>
    cases b with
    | false => exact ⟨0, Or.inr ⟨t, rfl⟩⟩
    | true =>
      obtain ⟨n, h | ⟨rest, h⟩⟩ := ih
      · exact ⟨n + 1, Or.inl (by simp [busy_polls, h, List.replicate_succ])⟩
      · exact ⟨n + 1, Or.inr ⟨rest, by simp [busy_polls, h, List.replicate_succ]⟩⟩

theorem transfer_done_trace (d : Dir) (s : St) : (transfer_done d s).trace = s.trace := by
  cases d <;> rfl

theorem wait_not_busy_spec (d : Dir) (s : St) :
    ∃ n s1, s1.TxBuffer = s.TxBuffer ∧
      ((wait_not_busy d s = .error s1 ∧
          s1.trace = s.trace ++ List.replicate n (Event.XAxiDma_Busy d true)) ∨
       (wait_not_busy d s = .ok s1 ∧
          s1.trace = s.trace ++ List.replicate n (Event.XAxiDma_Busy d true) ++
            [Event.XAxiDma_Busy d false])) := by
  obtain ⟨n, h | ⟨rest, h⟩⟩ := busy_polls_spec d s.dmaBusy
  · exact ⟨n, { s with trace := s.trace ++ List.replicate n (Event.XAxiDma_Busy d true),
                        dmaBusy := [] },
      rfl, Or.inl ⟨by simp only [wait_not_busy, h], rfl⟩⟩
  · refine ⟨n, transfer_done d { s with
        trace := s.trace ++ (List.replicate n (Event.XAxiDma_Busy d true) ++
          [Event.XAxiDma_Busy d false]), dmaBusy := rest },
      ?_, Or.inr ⟨by simp only [wait_not_busy, h], ?_⟩⟩
    · cases d <;> rfl
    · simp [transfer_done_trace, List.append_assoc]

theorem inbyte_polls_spec (l : List Nat) :
    ∃ zs, (∀ e ∈ zs, isSetup e = true) ∧
      (inbyte_polls l = (zs, none) ∨
        ∃ key rest, key ≠ 0 ∧ inbyte_polls l = (zs ++ [Event.inbyte key], some rest)) := by
  induction l with
  | nil => exact ⟨[], by simp, Or.inl rfl⟩
  | cons c t ih =>
    by_cases hc : c = 0
    · obtain ⟨zs, hz, h | ⟨key, rest, hk, h⟩⟩ := ih
      · refine ⟨Event.inbyte c :: zs, ?_, Or.inl (by simp [inbyte_polls, hc, h])⟩
        intro e he
        rcases List.mem_cons.1 he with rfl | he
        · rfl
        · exact hz e he
      · refine ⟨Event.inbyte c :: zs, ?_, Or.inr ⟨key, rest, hk, by simp [inbyte_polls, hc, h]⟩⟩
        intro e he
        rcases List.mem_cons.1 he with rfl | he
        · rfl
        · exact hz e he
    · exact ⟨[], by simp, Or.inr ⟨c, t, hc, by simp [inbyte_polls, hc]⟩⟩

theorem wait_for_key_spec (s : St) :
    ∃ zs s1, (∀ e ∈ zs, isSetup e = true) ∧
      s1.TxBuffer = s.TxBuffer ∧ s1.RxBuffer = s.RxBuffer ∧
      ((wait_for_key s = .error s1 ∧ s1.trace = s.trace ++ zs) ∨
       ∃ key, key ≠ 0 ∧ wait_for_key s = .ok s1 ∧
          s1.trace = s.trace ++ zs ++ [Event.inbyte key]) := by
  obtain ⟨zs, hz, h | ⟨key, rest, hk, h⟩⟩ := inbyte_polls_spec s.uart
  · exact ⟨zs, { s with trace := s.trace ++ zs, uart := [] }, hz, rfl, rfl,
      Or.inl ⟨by simp only [wait_for_key, h], rfl⟩⟩
  · exact ⟨zs, { s with trace := s.trace ++ (zs ++ [Event.inbyte key]), uart := rest },
      hz, rfl, rfl, Or.inr ⟨key, hk, by simp only [wait_for_key, h],
      by simp [List.append_assoc]⟩⟩

theorem status_polls_spec (l : List Nat) :
    (∀ e ∈ (status_polls l).1, isSetup e = true) := by
  induction l with
  | nil => simp [status_polls]
  | cons v t ih =>
    by_cases hv : v &&& 0x02 = 0
    · intro e he
      simp only [status_polls, hv, if_true, List.mem_cons] at he
      rcases he with rfl | he
      · rfl
      · exact ih e he
    · intro e he
      simp only [status_polls, hv, if_false, List.mem_singleton] at he
      subst he
      rfl

theorem wait_key_expansion_spec (s : St) :
    ∃ ev s1, (∀ e ∈ ev, isSetup e = true) ∧ s1.trace = s.trace ++ ev ∧
      s1.TxBuffer = s.TxBuffer ∧ s1.RxBuffer = s.RxBuffer ∧
      (wait_key_expansion s = .error s1 ∨ wait_key_expansion s = .ok s1) := by
  have h := status_polls_spec s.aesStatus
  unfold wait_key_expansion
  rcases hp : status_polls s.aesStatus with ⟨ev, _ | rest⟩
  · rw [hp] at h
    exact ⟨ev, { s with trace := s.trace ++ ev, aesStatus := [] }, h, rfl, rfl, rfl,
      Or.inl rfl⟩
  · rw [hp] at h
    exact ⟨ev, { s with trace := s.trace ++ ev, aesStatus := rest }, h, rfl, rfl, rfl,
      Or.inr rfl⟩

theorem forLoop_inv {α : Type} (f : St → α) (body : Nat → St → St)
    (h : ∀ i s, f (body i s) = f s) (n : Nat) (s : St) : f (forLoop n body s) = f s := by
  induction n with
  | zero => rfl
  | succ n ih => rw [forLoop_succ, h, ih]

theorem transfer_section_spec (len : Nat) (s : St) (k : St → Except St St) :
    ∃ p s1, s1.TxBuffer = s.TxBuffer ∧ s1.trace = s.trace ++ transfer_events len p ∧
      ((p.isComplete = false ∧
          (wait_not_busy .XAXIDMA_DMA_TO_DEVICE
            (XAxiDma_SimpleTransfer .TxBuffer len .XAXIDMA_DMA_TO_DEVICE
              (XAxiDma_SimpleTransfer .RxBuffer len .XAXIDMA_DEVICE_TO_DMA s)) >>=
            fun s2 => wait_not_busy .XAXIDMA_DEVICE_TO_DMA s2 >>= k) = .error s1) ∨
       (p.isComplete = true ∧
          (wait_not_busy .XAXIDMA_DMA_TO_DEVICE
            (XAxiDma_SimpleTransfer .TxBuffer len .XAXIDMA_DMA_TO_DEVICE
              (XAxiDma_SimpleTransfer .RxBuffer len .XAXIDMA_DEVICE_TO_DMA s)) >>=
            fun s2 => wait_not_busy .XAXIDMA_DEVICE_TO_DMA s2 >>= k) = k s1)) := by
  obtain ⟨n, s2, htx2, h2⟩ := wait_not_busy_spec .XAXIDMA_DMA_TO_DEVICE
    (XAxiDma_SimpleTransfer .TxBuffer len .XAXIDMA_DMA_TO_DEVICE
      (XAxiDma_SimpleTransfer .RxBuffer len .XAXIDMA_DEVICE_TO_DMA s))
  have htx0 : (XAxiDma_SimpleTransfer .TxBuffer len .XAXIDMA_DMA_TO_DEVICE
      (XAxiDma_SimpleTransfer .RxBuffer len .XAXIDMA_DEVICE_TO_DMA s)).TxBuffer = s.TxBuffer := rfl
  rcases h2 with ⟨h2, ht2⟩ | ⟨h2, ht2⟩
  · refine ⟨.send_busy n, s2, htx2.trans htx0, ?_, Or.inl ⟨rfl, ?_⟩⟩
    · simp [ht2, transfer_trace, transfer_events, send_poll_events, recv_poll_events,
        List.append_assoc]
    · simp only [h2, bind, Except.bind]
  · obtain ⟨m, s3, htx3, h3⟩ := wait_not_busy_spec .XAXIDMA_DEVICE_TO_DMA s2
    rcases h3 with ⟨h3, ht3⟩ | ⟨h3, ht3⟩
    · refine ⟨.recv_busy n m, s3, htx3.trans (htx2.trans htx0), ?_, Or.inl ⟨rfl, ?_⟩⟩
      · simp [ht3, ht2, transfer_trace, transfer_events, send_poll_events, recv_poll_events,
          List.append_assoc]
      · simp only [h2, h3, bind, Except.bind]
    · refine ⟨.complete n m, s3, htx3.trans (htx2.trans htx0), ?_, Or.inr ⟨rfl, ?_⟩⟩
      · simp [ht3, ht2, transfer_trace, transfer_events, send_poll_events, recv_poll_events,
          List.append_assoc]
      · simp only [h2, h3, bind, Except.bind]

/-! ## bare_metal_driver.c: shape of the trace -/

namespace BareMetalDriver

theorem print_hex_trace (b : Buf) (off len : Nat) (s : St) :
    (print_hex b off len s).trace = s.trace ++ print_hex_events b off len := by
  simp only [print_hex, emit_trace, print_hex_events]
  rw [forLoop_trace (fun i => [Event.hostRead b (off + i), Event.xil_printf]) _
    (fun _ _ => rfl)]
  simp [emit_trace, List.append_assoc]

theorem print_hex_rx (b : Buf) (off len : Nat) (s : St) :
    (print_hex b off len s).RxBuffer = s.RxBuffer := by
  simp only [print_hex]
  exact forLoop_inv (fun s => s.RxBuffer)
    (fun i => emit [Event.hostRead b (off + i), Event.xil_printf]) (fun _ _ => rfl) len _

theorem print_hex_tx (b : Buf) (off len : Nat) (s : St) :
    (print_hex b off len s).TxBuffer = s.TxBuffer := by
  simp only [print_hex]
  exact forLoop_inv (fun s => s.TxBuffer)
    (fun i => emit [Event.hostRead b (off + i), Event.xil_printf]) (fun _ _ => rfl) len _

theorem fill_tx_trace (pat : List Nat) (s : St) :
    (fill_tx pat s).trace = s.trace ++ fill_events :=
  forLoop_trace (fun i => memcpy_events .TxBuffer (i * 16) 16) _
    (fun _ _ => memcpy_trace _ _ _ _ _) 4 s

theorem report_block_rx (i : Nat) (s : St) : (report_block i s).RxBuffer = s.RxBuffer := by
  simp only [report_block, emit, print_hex_rx]

theorem report_block_tx (i : Nat) (s : St) : (report_block i s).TxBuffer = s.TxBuffer := by
  simp only [report_block, emit, print_hex_tx]

theorem block_match_congr (i : Nat) (s t : St) (h : s.RxBuffer = t.RxBuffer) :
    block_match i s = block_match i t := by
  simp only [block_match, memcmp_eq, load, h]

theorem report_block_trace (i : Nat) (s : St) :
    (report_block i s).trace = s.trace ++ report_block_events i (block_match i s) := by
  have hm : block_match i (emit (memcmp_reads .RxBuffer (i * 16) 16)
      (print_hex .RxBuffer (i * 16) 16 (print_hex .TxBuffer (i * 16) 16
        (emit [Event.xil_printf] s)))) = block_match i s :=
    block_match_congr _ _ _ (by simp only [emit, print_hex_rx])
  simp only [report_block, emit_trace, print_hex_trace, report_block_events, hm,
    List.append_assoc]

theorem wait_for_ila_setup_spec (s : St) :
    ∃ pre s1, (∀ e ∈ pre, isSetup e = true) ∧
      s1.TxBuffer = s.TxBuffer ∧ s1.RxBuffer = s.RxBuffer ∧
      ((wait_for_ila_setup s = .error s1 ∧ s1.trace = s.trace ++ pre) ∨
       ∃ key, key ≠ 0 ∧ wait_for_ila_setup s = .ok s1 ∧
          s1.trace = s.trace ++ pre ++
            [Event.inbyte key, Event.xil_printf, Event.gate_return]) := by
  obtain ⟨zs, s1, hz, htx, hrx, h⟩ := wait_for_key_spec
    (emit [.xil_printf, .xil_printf, .xil_printf, .xil_printf] s)
  have hpre : ∀ e ∈ [Event.xil_printf, .xil_printf, .xil_printf, .xil_printf] ++ zs,
      isSetup e = true := by
    intro e he
    rcases List.mem_append.1 he with he | he
    · simp only [List.mem_cons, List.mem_singleton, List.mem_nil_iff, or_false, or_self] at he
      subst he
      rfl
    · exact hz e he
  rcases h with ⟨h, ht⟩ | ⟨key, hk, h, ht⟩
  · refine ⟨_, s1, hpre, htx, hrx, Or.inl ⟨?_, ?_⟩⟩
    · simp only [wait_for_ila_setup, bind, Except.bind, h]
    · simp only [ht, emit_trace, List.append_assoc]
  · refine ⟨_, emit [.gate_return] (emit [.xil_printf] s1), hpre, htx, hrx,
      Or.inr ⟨key, hk, ?_, ?_⟩⟩
    · simp only [wait_for_ila_setup, bind, Except.bind, h, pure, Except.pure]
    · simp [ht, emit_trace, List.append_assoc]

theorem report_loop_trace (s : St) :
    (forLoop 4 report_block s).trace = s.trace ++
      (report_block_events 0 (block_match 0 s) ++ report_block_events 1 (block_match 1 s) ++
       report_block_events 2 (block_match 2 s) ++ report_block_events 3 (block_match 3 s)) ∧
    (forLoop 4 report_block s).RxBuffer = s.RxBuffer ∧
    (forLoop 4 report_block s).TxBuffer = s.TxBuffer := by
  have h4 : forLoop 4 report_block s =
      report_block 3 (report_block 2 (report_block 1 (report_block 0 s))) := rfl
  have e1 : block_match 1 (report_block 0 s) = block_match 1 s :=
    block_match_congr _ _ _ (by simp only [report_block_rx])
  have e2 : block_match 2 (report_block 1 (report_block 0 s)) = block_match 2 s :=
    block_match_congr _ _ _ (by simp only [report_block_rx])
  have e3 : block_match 3 (report_block 2 (report_block 1 (report_block 0 s))) =
      block_match 3 s :=
    block_match_congr _ _ _ (by simp only [report_block_rx])
  refine ⟨?_, ?_, ?_⟩
  · rw [h4]
    simp only [report_block_trace, e1, e2, e3, List.append_assoc]
  · rw [h4]
    simp only [report_block_rx]
  · exact forLoop_inv (fun s => s.TxBuffer) report_block (fun _ _ => report_block_tx _ _) 4 s

theorem memset_tx (c n : Nat) (s : St) : (memset .RxBuffer c n s).TxBuffer = s.TxBuffer :=
  forLoop_inv (fun s => s.TxBuffer) (fun j => store .RxBuffer j c) (fun _ _ => rfl) n s

theorem run_backpressure_test_spec (s : St) :
    ∃ p s1 m0 m1 m2 m3, s1.TxBuffer = (fill_tx pattern s).TxBuffer ∧
      s1.trace = s.trace ++ prepare_events ++ transfer_events 64 p ++
        (if p.isComplete then
          [Event.Xil_DCacheInvalidateRange .RxBuffer 64] ++ report_events m0 m1 m2 m3
         else []) ∧
      ((p.isComplete = false ∧ run_backpressure_test s = .error s1) ∨
       (p.isComplete = true ∧ run_backpressure_test s = .ok s1 ∧
          m0 = block_match 0 s1 ∧ m1 = block_match 1 s1 ∧
          m2 = block_match 2 s1 ∧ m3 = block_match 3 s1)) := by
  obtain ⟨p, s1, htx, ht, h⟩ := transfer_section_spec 64
    (emit [.Xil_DCacheInvalidateRange .RxBuffer 64]
      (emit [.Xil_DCacheFlushRange .TxBuffer 64] (memset .RxBuffer 0 64 (fill_tx pattern s))))
    (fun s => pure (forLoop 4 report_block
      (print_hex .local_array 0 16 (emit [.xil_printf]
        (print_hex .local_array 0 16 (emit [.xil_printf, .xil_printf]
          (emit [.Xil_DCacheInvalidateRange .RxBuffer 64] s)))))))
  have htx1 : s1.TxBuffer = (fill_tx pattern s).TxBuffer := by
    rw [htx, emit_tx, emit_tx]
    exact memset_tx 0 64 _
  have ht1 : s1.trace = s.trace ++ prepare_events ++ transfer_events 64 p := by
    rw [ht]
    simp only [emit_trace, memset_trace, fill_tx_trace, prepare_events, List.append_assoc,
      List.singleton_append, List.cons_append, List.nil_append]
  rcases h with ⟨hp, h⟩ | ⟨hp, h⟩
  · refine ⟨p, s1, false, false, false, false, htx1, ?_, Or.inl ⟨hp, h⟩⟩
    simp [ht1, hp]
  · generalize hs2 : print_hex Buf.local_array 0 16 (emit [Event.xil_printf]
        (print_hex Buf.local_array 0 16 (emit [Event.xil_printf, Event.xil_printf]
          (emit [Event.Xil_DCacheInvalidateRange Buf.RxBuffer 64] s1)))) = s2 at h
    obtain ⟨hl, hrx, hltx⟩ := report_loop_trace s2
    have htx2 : s2.TxBuffer = s1.TxBuffer := by
      rw [← hs2]
      simp only [print_hex_tx, emit_tx]
    have ht2 : s2.trace = s1.trace ++ ([Event.Xil_DCacheInvalidateRange Buf.RxBuffer 64] ++
        ([Event.xil_printf, Event.xil_printf] ++ print_hex_events .local_array 0 16 ++
          [Event.xil_printf] ++ print_hex_events .local_array 0 16)) := by
      rw [← hs2]
      simp only [print_hex_trace, emit_trace, List.append_assoc]
    refine ⟨p, forLoop 4 report_block s2, block_match 0 s2, block_match 1 s2,
      block_match 2 s2, block_match 3 s2, ?_, ?_, Or.inr ⟨hp, h, ?_, ?_, ?_, ?_⟩⟩
    · rw [hltx, htx2]
      exact htx1
    · rw [hl, ht2, ht1]
      simp only [hp, if_true, report_events, List.append_assoc]
    all_goals exact block_match_congr _ _ _ hrx.symm

theorem main_shape (env : Env) :
    (completed (main env) = false ∧ ∀ e ∈ traceOf (main env), isSetup e = true) ∨
    ∃ pre key p m0 m1 m2 m3 sf,
      (∀ e ∈ pre, isSetup e = true) ∧ key ≠ 0 ∧
      completed (main env) = p.isComplete ∧
      traceOf (main env) =
        pre ++ [Event.inbyte key, Event.xil_printf, Event.gate_return] ++ prepare_events ++
          transfer_events 64 p ++
          (if p.isComplete then
            [Event.Xil_DCacheInvalidateRange .RxBuffer 64] ++ report_events m0 m1 m2 m3 ++
              [Event.xil_printf]
           else []) ∧
      (p.isComplete = true → main env = .ok sf ∧
          m0 = block_match 0 sf ∧ m1 = block_match 1 sf ∧
          m2 = block_match 2 sf ∧ m3 = block_match 3 sf) := by
  generalize hs0 : emit [Event.Xil_Out32 0x00 0, .Xil_Out32 0x04 0, .Xil_Out32 0x08 0,
      .Xil_Out32 0x0C 0, .Xil_Out32 0x14 0x1, .Xil_Out32 0x14 0x0]
    (emit [Event.XAxiDma_LookupConfig, .XAxiDma_CfgInitialize,
      .XAxiDma_IntrDisable .XAXIDMA_DEVICE_TO_DMA, .XAxiDma_IntrDisable .XAXIDMA_DMA_TO_DEVICE]
      (emit [Event.xil_printf] (boot env))) = s0
  have hmain : main env = wait_key_expansion s0 >>= fun s => wait_for_ila_setup s >>=
      fun s => run_backpressure_test s >>= fun s => pure (emit [.xil_printf] s) := by
    rw [← hs0]
    rfl
  have hpro : ∀ e ∈ s0.trace, isSetup e = true := by
    rw [← hs0]
    simp only [emit_trace, boot, List.nil_append]
    decide
  obtain ⟨ev, s1, hev, ht1, -, -, h1 | h1⟩ := wait_key_expansion_spec s0
  · left
    have hm : main env = .error s1 := by rw [hmain, h1]; rfl
    rw [hm]
    refine ⟨rfl, ?_⟩
    intro e he
    simp only [traceOf, ht1, List.mem_append] at he
    rcases he with he | he
    · exact hpro e he
    · exact hev e he
  obtain ⟨pre, s2, hpre, -, -, h2⟩ := wait_for_ila_setup_spec s1
  rcases h2 with ⟨h2, ht2⟩ | ⟨key, hkey, h2, ht2⟩
  · left
    have hm : main env = .error s2 := by rw [hmain, h1]; simp only [bind, Except.bind, h2]
    rw [hm]
    refine ⟨rfl, ?_⟩
    intro e he
    simp only [traceOf, ht2, ht1, List.mem_append] at he
    rcases he with (he | he) | he
    · exact hpro e he
    · exact hev e he
    · exact hpre e he
  right
  have hpre2 : ∀ e ∈ s0.trace ++ ev ++ pre, isSetup e = true := by
    intro e he
    simp only [List.mem_append] at he
    rcases he with (he | he) | he
    · exact hpro e he
    · exact hev e he
    · exact hpre e he
  obtain ⟨p, s3, m0, m1, m2, m3, -, ht3, h3⟩ := run_backpressure_test_spec s2
  rcases h3 with ⟨hp, h3⟩ | ⟨hp, h3, hm0, hm1, hm2, hm3⟩
  · have hm : main env = .error s3 := by
      rw [hmain, h1]; simp only [bind, Except.bind, h2, h3]
    refine ⟨_, key, p, m0, m1, m2, m3, s3, hpre2, hkey, ?_, ?_, ?_⟩
    · rw [hm, hp]; rfl
    · rw [hm]
      simp only [traceOf, ht3, ht2, ht1, hp, List.append_assoc]
      simp
    · intro h
      rw [hp] at h
      exact absurd h (by decide)
  · have hm : main env = .ok (emit [.xil_printf] s3) := by
      rw [hmain, h1]; simp only [bind, Except.bind, h2, h3, pure, Except.pure]
    refine ⟨_, key, p, m0, m1, m2, m3, emit [.xil_printf] s3, hpre2, hkey, ?_, ?_, ?_⟩
    · rw [hm, hp]; rfl
    · rw [hm]
      simp only [traceOf, emit_trace, ht3, ht2, ht1, hp, if_true, List.append_assoc]
    · intro _
      exact ⟨hm, hm0, hm1, hm2, hm3⟩

end BareMetalDriver

/-! ## dma_axis_fifo_vitis_test.c: shape of the trace -/

namespace DmaAxisFifoTest

theorem print_buffer_trace (b : Buf) (len : Nat) (s : St) :
    (print_buffer b len s).trace = s.trace ++ print_buffer_events b len := by
  simp only [print_buffer, emit_trace, print_buffer_events]
  rw [forLoop_trace (fun i => [Event.hostRead b i, Event.xil_printf] ++
    (if (i + 1) % 16 = 0 then [Event.xil_printf] else [])) _ (fun i s => by
      by_cases h : (i + 1) % 16 = 0 <;> simp [h, emit_trace])]
  simp [emit_trace, List.append_assoc]

theorem print_buffer_tx (b : Buf) (len : Nat) (s : St) :
    (print_buffer b len s).TxBuffer = s.TxBuffer := by
  simp only [print_buffer, emit_tx]
  exact forLoop_inv (fun s => s.TxBuffer) (fun i s =>
      if (i + 1) % 16 = 0 then emit [Event.xil_printf] (emit [Event.hostRead b i, .xil_printf] s)
      else emit [Event.hostRead b i, .xil_printf] s)
    (fun i s => by by_cases h : (i + 1) % 16 = 0 <;> simp [h, emit_tx]) len _

theorem print_buffer_rx (b : Buf) (len : Nat) (s : St) :
    (print_buffer b len s).RxBuffer = s.RxBuffer := by
  simp only [print_buffer, emit_rx]
  exact forLoop_inv (fun s => s.RxBuffer) (fun i s =>
      if (i + 1) % 16 = 0 then emit [Event.xil_printf] (emit [Event.hostRead b i, .xil_printf] s)
      else emit [Event.hostRead b i, .xil_printf] s)
    (fun i s => by by_cases h : (i + 1) % 16 = 0 <;> simp [h, emit_rx]) len _

theorem prepare_buffers_trace (s : St) :
    (prepare_buffers s).trace = s.trace ++ prepare_events :=
  forLoop_trace (fun i => [Event.hostWrite .TxBuffer i, Event.hostWrite .RxBuffer i]) _
    (fun _ _ => by simp [store_trace]) MEM_SIZE s

theorem fifo_wait_for_ila_setup_spec (s : St) :
    ∃ pre s1, (∀ e ∈ pre, isSetup e = true) ∧
      s1.TxBuffer = s.TxBuffer ∧ s1.RxBuffer = s.RxBuffer ∧
      ((wait_for_ila_setup s = .error s1 ∧ s1.trace = s.trace ++ pre) ∨
       ∃ key, key ≠ 0 ∧ wait_for_ila_setup s = .ok s1 ∧
          s1.trace = s.trace ++ pre ++
            [Event.inbyte key, Event.xil_printf, Event.gate_return]) := by
  obtain ⟨zs, s1, hz, htx, hrx, h⟩ := wait_for_key_spec
    (emit (List.replicate 11 .xil_printf) s)
  have hpre : ∀ e ∈ List.replicate 11 Event.xil_printf ++ zs, isSetup e = true := by
    intro e he
    rcases List.mem_append.1 he with he | he
    · rw [List.eq_of_mem_replicate he]
      rfl
    · exact hz e he
  rcases h with ⟨h, ht⟩ | ⟨key, hk, h, ht⟩
  · refine ⟨_, s1, hpre, htx, hrx, Or.inl ⟨?_, ?_⟩⟩
    · simp only [wait_for_ila_setup, bind, Except.bind, h]
    · simp only [ht, emit_trace, List.append_assoc]
  · refine ⟨_, emit [.gate_return] (emit [.xil_printf] s1), hpre, htx, hrx,
      Or.inr ⟨key, hk, ?_, ?_⟩⟩
    · simp only [wait_for_ila_setup, bind, Except.bind, h, pure, Except.pure]
    · simp [ht, emit_trace, List.append_assoc]

theorem fifo_main_shape (env : Env) :
    ∃ pre, (∀ e ∈ pre, isSetup e = true) ∧
      ((completed (main env) = false ∧
          traceOf (main env) = init_events ++
            [Event.Xil_DCacheFlushRange .TxBuffer MEM_SIZE,
             Event.Xil_DCacheInvalidateRange .RxBuffer MEM_SIZE] ++ pre) ∨
       ∃ key p m sf, key ≠ 0 ∧ completed (main env) = p.isComplete ∧
          traceOf (main env) = init_events ++
            [Event.Xil_DCacheFlushRange .TxBuffer MEM_SIZE,
             Event.Xil_DCacheInvalidateRange .RxBuffer MEM_SIZE] ++ pre ++
            [Event.inbyte key, Event.xil_printf, Event.gate_return] ++
            transfer_events MEM_SIZE p ++
            (if p.isComplete then
              [Event.Xil_DCacheInvalidateRange .RxBuffer MEM_SIZE] ++ report_events m
             else []) ∧
          (p.isComplete = true → main env = .ok sf ∧ m = buffers_equal sf)) := by
  generalize hs0 : emit [Event.Xil_DCacheInvalidateRange .RxBuffer MEM_SIZE]
    (emit [Event.Xil_DCacheFlushRange .TxBuffer MEM_SIZE]
      (print_buffer .RxBuffer MEM_SIZE (print_buffer .TxBuffer MEM_SIZE (prepare_buffers
        (emit [Event.XAxiDma_LookupConfig, .XAxiDma_CfgInitialize,
          .XAxiDma_IntrDisable .XAXIDMA_DEVICE_TO_DMA,
          .XAxiDma_IntrDisable .XAXIDMA_DMA_TO_DEVICE]
          (emit [Event.xil_printf] (boot env))))))) = s0
  have hmain : main env = wait_for_ila_setup s0 >>= fun s =>
      wait_not_busy .XAXIDMA_DMA_TO_DEVICE
        (XAxiDma_SimpleTransfer .TxBuffer MEM_SIZE .XAXIDMA_DMA_TO_DEVICE
          (XAxiDma_SimpleTransfer .RxBuffer MEM_SIZE .XAXIDMA_DEVICE_TO_DMA s)) >>=
        fun s2 => wait_not_busy .XAXIDMA_DEVICE_TO_DMA s2 >>= fun s3 =>
          pure (emit [.xil_printf] (emit [.compare_result (buffers_equal
            (emit compare_reads (print_buffer .RxBuffer MEM_SIZE
              (emit [.Xil_DCacheInvalidateRange .RxBuffer MEM_SIZE] s3))))]
            (emit compare_reads (print_buffer .RxBuffer MEM_SIZE
              (emit [.Xil_DCacheInvalidateRange .RxBuffer MEM_SIZE] s3))))) := by
    rw [← hs0]
    rfl
  have ht0 : s0.trace = init_events ++
      [Event.Xil_DCacheFlushRange .TxBuffer MEM_SIZE,
       Event.Xil_DCacheInvalidateRange .RxBuffer MEM_SIZE] := by
    rw [← hs0]
    simp only [emit_trace, print_buffer_trace, prepare_buffers_trace, boot, init_events,
      List.nil_append, List.append_assoc, List.singleton_append, List.cons_append]
  obtain ⟨pre, s1, hpre, -, -, h1⟩ := fifo_wait_for_ila_setup_spec s0
  refine ⟨pre, hpre, ?_⟩
  rcases h1 with ⟨h1, ht1⟩ | ⟨key, hkey, h1, ht1⟩
  · left
    have hm : main env = .error s1 := by rw [hmain, h1]; rfl
    rw [hm]
    exact ⟨rfl, by simp only [traceOf, ht1, ht0]⟩
  right
  obtain ⟨p, s2, -, ht2, h2⟩ := transfer_section_spec MEM_SIZE s1 (fun s3 =>
    pure (emit [.xil_printf] (emit [.compare_result (buffers_equal
      (emit compare_reads (print_buffer .RxBuffer MEM_SIZE
        (emit [.Xil_DCacheInvalidateRange .RxBuffer MEM_SIZE] s3))))]
      (emit compare_reads (print_buffer .RxBuffer MEM_SIZE
        (emit [.Xil_DCacheInvalidateRange .RxBuffer MEM_SIZE] s3))))))
  rcases h2 with ⟨hp, h2⟩ | ⟨hp, h2⟩
  · have hm : main env = .error s2 := by
      rw [hmain, h1]
      exact h2
    refine ⟨key, p, false, s2, hkey, ?_, ?_, ?_⟩
    · rw [hm, hp]; rfl
    · rw [hm]
      simp only [traceOf, ht2, ht1, ht0, hp, List.append_assoc]
      simp
    · intro h
      rw [hp] at h
      exact absurd h (by decide)
  · generalize hs3 : emit compare_reads (print_buffer .RxBuffer MEM_SIZE
        (emit [.Xil_DCacheInvalidateRange .RxBuffer MEM_SIZE] s2)) = s3 at h2
    have ht3 : s3.trace = s2.trace ++ ([Event.Xil_DCacheInvalidateRange .RxBuffer MEM_SIZE] ++
        (print_buffer_events .RxBuffer MEM_SIZE ++ compare_reads)) := by
      rw [← hs3]
      simp only [emit_trace, print_buffer_trace, List.append_assoc]
    have hm : main env = .ok (emit [.xil_printf] (emit [.compare_result (buffers_equal s3)] s3)) := by
      rw [hmain, h1]
      exact h2
    refine ⟨key, p, buffers_equal s3,
      emit [.xil_printf] (emit [.compare_result (buffers_equal s3)] s3), hkey, ?_, ?_, ?_⟩
    · rw [hm, hp]; rfl
    · rw [hm]
      simp only [traceOf, emit_trace, ht3, ht2, ht1, ht0, hp, if_true, report_events,
        List.append_assoc, List.singleton_append, List.cons_append, List.nil_append]
    · intro _
      exact ⟨hm, rfl⟩

end DmaAxisFifoTest

/-! ## Which classes of events the parts of a trace contain -/

theorem setup_excludes (e : Event) (h : isSetup e = true) :
    isStart e = false ∧ isSendStart e = false ∧ isPoll e = false ∧ isCacheOp e = false ∧
      isGateReturn e = false ∧ (∀ b, isWrite b e = false) ∧ (∀ b, isRead b e = false) ∧
      isVerdict e = false := by
  cases e <;> simp_all [isSetup, isStart, isSendStart, isPoll, isCacheOp, isGateReturn,
    isWrite, isRead, isVerdict]

theorem prepare_excludes (e : Event) (h : isPrepare e = true) :
    isStart e = false ∧ isSendStart e = false ∧ isPoll e = false ∧
      isGateReturn e = false ∧ (∀ b, isRead b e = false) ∧ isVerdict e = false ∧
      isConsole e = false := by
  cases e <;> simp_all [isPrepare, isStart, isSendStart, isPoll, isGateReturn,
    isRead, isVerdict, isConsole]

theorem init_excludes (e : Event) (h : isInit e = true) :
    isStart e = false ∧ isSendStart e = false ∧ isPoll e = false ∧ isCacheOp e = false ∧
      isGateReturn e = false ∧ isVerdict e = false := by
  cases e <;> simp_all [isInit, isSetup, isStart, isSendStart, isPoll, isCacheOp,
    isGateReturn, isVerdict]

theorem report_excludes (e : Event) (h : isReport e = true) :
    isStart e = false ∧ isSendStart e = false ∧ isPoll e = false ∧ isCacheOp e = false ∧
      isGateReturn e = false ∧ (∀ b, isWrite b e = false) := by
  cases e <;> simp_all [isReport, isStart, isSendStart, isPoll, isCacheOp, isGateReturn,
    isWrite]

theorem poll_excludes (e : Event) (h : isPoll e = true) :
    isStart e = false ∧ isSendStart e = false ∧ isCacheOp e = false ∧
      isGateReturn e = false ∧ (∀ b, isWrite b e = false) ∧ (∀ b, isRead b e = false) ∧
      isVerdict e = false := by
  cases e <;> simp_all [isPoll, isStart, isSendStart, isCacheOp, isGateReturn,
    isWrite, isRead, isVerdict]

theorem send_poll_events_class (p : Progress) : ∀ e ∈ send_poll_events p, isPoll e = true := by
  intro e he
  cases p with
  | send_busy n =>
    simp only [send_poll_events, List.mem_replicate] at he
    rw [he.2]; rfl
  | recv_busy n m =>
    simp only [send_poll_events, List.mem_append, List.mem_replicate, List.mem_singleton] at he
    rcases he with he | he
    · rw [he.2]; rfl
    · rw [he]; rfl
  | complete n m =>
    simp only [send_poll_events, List.mem_append, List.mem_replicate, List.mem_singleton] at he
    rcases he with he | he
    · rw [he.2]; rfl
    · rw [he]; rfl

theorem recv_poll_events_class (p : Progress) : ∀ e ∈ recv_poll_events p, isPoll e = true := by
  intro e he
  cases p with
  | send_busy n => simp [recv_poll_events] at he
  | recv_busy n m =>
    simp only [recv_poll_events, List.mem_replicate] at he
    rw [he.2]; rfl
  | complete n m =>
    simp only [recv_poll_events, List.mem_append, List.mem_replicate, List.mem_singleton] at he
    rcases he with he | he
    · rw [he.2]; rfl
    · rw [he]; rfl

theorem transfer_events_eq (len : Nat) (p : Progress) :
    transfer_events len p = start_events len ++ (send_poll_events p ++ recv_poll_events p) := by
  simp [transfer_events, start_events, List.append_assoc]

theorem polls_class (p : Progress) :
    ∀ e ∈ send_poll_events p ++ recv_poll_events p, isPoll e = true := by
  intro e he
  rcases List.mem_append.1 he with he | he
  · exact send_poll_events_class p e he
  · exact recv_poll_events_class p e he

set_option maxRecDepth 100000 in
theorem BareMetalDriver.prepare_events_class :
    ∀ e ∈ BareMetalDriver.prepare_events, isPrepare e = true := by
  decide

set_option maxRecDepth 100000 in
theorem BareMetalDriver.fill_memset_class :
    (∀ e ∈ BareMetalDriver.fill_events ++ memset_events .RxBuffer 64, isPrepare e = true) ∧
      Event.hostWrite .TxBuffer 63 ∈ BareMetalDriver.fill_events ++ memset_events .RxBuffer 64 := by
  decide

set_option maxRecDepth 100000 in
theorem BareMetalDriver.report_events_class :
    ∀ m0 m1 m2 m3, (∀ e ∈ BareMetalDriver.report_events m0 m1 m2 m3, isReport e = true) ∧
      Event.hostRead .RxBuffer 0 ∈ BareMetalDriver.report_events m0 m1 m2 m3 ∧
      Event.block_result 3 m3 ∈ BareMetalDriver.report_events m0 m1 m2 m3 := by
  decide

set_option maxRecDepth 100000 in
theorem DmaAxisFifoTest.init_events_class :
    (∀ e ∈ DmaAxisFifoTest.init_events, isInit e = true) ∧
      Event.hostWrite .TxBuffer 31 ∈ DmaAxisFifoTest.init_events := by
  decide

set_option maxRecDepth 100000 in
theorem DmaAxisFifoTest.fifo_report_events_class :
    ∀ m, (∀ e ∈ DmaAxisFifoTest.report_events m, isReport e = true) ∧
      Event.hostRead .RxBuffer 0 ∈ DmaAxisFifoTest.report_events m ∧
      Event.compare_result m ∈ DmaAxisFifoTest.report_events m := by
  decide

theorem gate_end_class (key : Nat) :
    ∀ e ∈ [Event.inbyte key, Event.xil_printf, Event.gate_return],
      isStart e = false ∧ isSendStart e = false ∧ isPoll e = false ∧ isCacheOp e = false ∧
      (∀ b, isWrite b e = false) ∧ (∀ b, isRead b e = false) ∧ isVerdict e = false := by
  intro e he
  simp only [List.mem_cons, List.mem_singleton, List.mem_nil_iff, or_false] at he
  rcases he with rfl | rfl | rfl <;>
    simp [isStart, isSendStart, isPoll, isCacheOp, isWrite, isRead, isVerdict]

/-- The events after the polling loops: the invalidate of the inbound buffer
followed by the report, or nothing when a loop was still polling. -/
theorem tail_class (len : Nat) (p : Progress) (rep : List Event)
    (hrep : ∀ e ∈ rep, isReport e = true) :
    ∀ e ∈ (if p.isComplete then [Event.Xil_DCacheInvalidateRange .RxBuffer len] ++ rep else []),
      isStart e = false ∧ isSendStart e = false ∧ isPoll e = false ∧
      isGateReturn e = false ∧ (∀ b, isWrite b e = false) := by
  intro e he
  by_cases hp : p.isComplete = true
  · simp only [hp, if_true, List.mem_append, List.mem_singleton] at he
    rcases he with rfl | he
    · simp [isStart, isSendStart, isPoll, isGateReturn, isWrite]
    · have h := report_excludes e (hrep e he)
      exact ⟨h.1, h.2.1, h.2.2.1, h.2.2.2.2.1, h.2.2.2.2.2⟩
  · simp [hp] at he

namespace BareMetalDriver

theorem before_transfer_class (pre : List Event) (key : Nat)
    (hpre : ∀ e ∈ pre, isSetup e = true) :
    ∀ e ∈ pre ++ [Event.inbyte key, Event.xil_printf, Event.gate_return] ++ prepare_events,
      isStart e = false ∧ isSendStart e = false ∧ isPoll e = false ∧
      (∀ b, isRead b e = false) ∧ isVerdict e = false := by
  intro e he
  simp only [List.mem_append] at he
  rcases he with (he | he) | he
  · have h := setup_excludes e (hpre e he)
    exact ⟨h.1, h.2.1, h.2.2.1, h.2.2.2.2.2.2.1, h.2.2.2.2.2.2.2⟩
  · have h := gate_end_class key e he
    exact ⟨h.1, h.2.1, h.2.2.1, h.2.2.2.2.2.1, h.2.2.2.2.2.2⟩
  · have h := prepare_excludes e (prepare_events_class e he)
    exact ⟨h.1, h.2.1, h.2.2.1, h.2.2.2.2.1, h.2.2.2.2.2.1⟩

theorem report_tail_class (m0 m1 m2 m3 : Bool) :
    ∀ e ∈ report_events m0 m1 m2 m3 ++ [Event.xil_printf], isReport e = true := by
  intro e he
  rcases List.mem_append.1 he with he | he
  · exact (report_events_class m0 m1 m2 m3).1 e he
  · rw [List.mem_singleton.1 he]; rfl

/-- Every run of bare_metal_driver.c either stops in a polling loop before the
gate returns, having performed set-up actions only, or has a trace of the form
`a ++ transfer_events 64 p ++ tail`. -/
theorem main_form (env : Env) :
    (completed (main env) = false ∧ ∀ e ∈ traceOf (main env), isSetup e = true) ∨
    ∃ pre key p rep,
      (∀ e ∈ pre, isSetup e = true) ∧ key ≠ 0 ∧ (∀ e ∈ rep, isReport e = true) ∧
      Event.hostRead .RxBuffer 0 ∈ rep ∧ (∃ v ∈ rep, isVerdict v = true) ∧
      completed (main env) = p.isComplete ∧
      traceOf (main env) =
        pre ++ [Event.inbyte key, Event.xil_printf, Event.gate_return] ++ prepare_events ++
          transfer_events 64 p ++
          (if p.isComplete then [Event.Xil_DCacheInvalidateRange .RxBuffer 64] ++ rep
           else []) := by
  rcases main_shape env with h | ⟨pre, key, p, m0, m1, m2, m3, sf, hpre, hkey, hc, ht, -⟩
  · exact Or.inl h
  · refine Or.inr ⟨pre, key, p, report_events m0 m1 m2 m3 ++ [Event.xil_printf], hpre, hkey,
      report_tail_class m0 m1 m2 m3,
      List.mem_append_left _ (report_events_class m0 m1 m2 m3).2.1,
      ⟨_, List.mem_append_left _ (report_events_class m0 m1 m2 m3).2.2, rfl⟩, hc, ?_⟩
    rw [ht]
    by_cases hp : p.isComplete = true <;> simp [hp, List.append_assoc]

end BareMetalDriver

namespace DmaAxisFifoTest

theorem fifo_before_transfer_class (pre : List Event) (key : Nat)
    (hpre : ∀ e ∈ pre, isSetup e = true) :
    ∀ e ∈ init_events ++ [Event.Xil_DCacheFlushRange .TxBuffer MEM_SIZE,
        Event.Xil_DCacheInvalidateRange .RxBuffer MEM_SIZE] ++ pre ++
        [Event.inbyte key, Event.xil_printf, Event.gate_return],
      isStart e = false ∧ isSendStart e = false ∧ isPoll e = false ∧ isVerdict e = false := by
  intro e he
  simp only [List.mem_append] at he
  rcases he with ((he | he) | he) | he
  · have h := init_excludes e (init_events_class.1 e he)
    exact ⟨h.1, h.2.1, h.2.2.1, h.2.2.2.2.2⟩
  · simp only [List.mem_cons, List.mem_singleton, List.mem_nil_iff, or_false] at he
    rcases he with rfl | rfl <;> simp [isStart, isSendStart, isPoll, isVerdict]
  · have h := setup_excludes e (hpre e he)
    exact ⟨h.1, h.2.1, h.2.2.1, h.2.2.2.2.2.2.2⟩
  · have h := gate_end_class key e he
    exact ⟨h.1, h.2.1, h.2.2.1, h.2.2.2.2.2.2⟩

/-- Every run of dma_axis_fifo_vitis_test.c either stops in the gate, or has a
trace of the form `a ++ transfer_events MEM_SIZE p ++ tail`. -/
theorem fifo_main_form (env : Env) :
    ∃ pre, (∀ e ∈ pre, isSetup e = true) ∧
      ((completed (main env) = false ∧
          traceOf (main env) = init_events ++
            [Event.Xil_DCacheFlushRange .TxBuffer MEM_SIZE,
             Event.Xil_DCacheInvalidateRange .RxBuffer MEM_SIZE] ++ pre) ∨
       ∃ key p rep, key ≠ 0 ∧ (∀ e ∈ rep, isReport e = true) ∧
          Event.hostRead .RxBuffer 0 ∈ rep ∧ (∃ v ∈ rep, isVerdict v = true) ∧
          completed (main env) = p.isComplete ∧
          traceOf (main env) = init_events ++
            [Event.Xil_DCacheFlushRange .TxBuffer MEM_SIZE,
             Event.Xil_DCacheInvalidateRange .RxBuffer MEM_SIZE] ++ pre ++
            [Event.inbyte key, Event.xil_printf, Event.gate_return] ++
            transfer_events MEM_SIZE p ++
            (if p.isComplete then
              [Event.Xil_DCacheInvalidateRange .RxBuffer MEM_SIZE] ++ rep
             else [])) := by
  obtain ⟨pre, hpre, h | ⟨key, p, m, sf, hkey, hc, ht, -⟩⟩ := fifo_main_shape env
  · exact ⟨pre, hpre, Or.inl h⟩
  · exact ⟨pre, hpre, Or.inr ⟨key, p, report_events m, hkey, (fifo_report_events_class m).1,
      (fifo_report_events_class m).2.1, ⟨_, (fifo_report_events_class m).2.2, rfl⟩, hc, ht⟩⟩

end DmaAxisFifoTest

/-! ## C1: the receive direction is started before the send direction -/

theorem starts_in_order (len : Nat) (t a tail : List Event) (p : Progress)
    (ht : t = a ++ transfer_events len p ++ tail)
    (ha : ∀ e ∈ a, isStart e = false) (htl : ∀ e ∈ tail, isStart e = false) :
    ∃ pre post, t = pre ++
        [Event.XAxiDma_SimpleTransfer .RxBuffer len .XAXIDMA_DEVICE_TO_DMA,
         Event.XAxiDma_SimpleTransfer .TxBuffer len .XAXIDMA_DMA_TO_DEVICE] ++ post ∧
      (∀ e ∈ pre, isStart e = false) ∧ (∀ e ∈ post, isStart e = false) := by
  refine ⟨a, send_poll_events p ++ recv_poll_events p ++ tail, ?_, ha, ?_⟩
  · rw [ht, transfer_events_eq]
    simp [start_events, List.append_assoc]
  · intro e he
    rcases List.mem_append.1 he with he | he
    · exact (poll_excludes e (polls_class p e he)).1
    · exact htl e he

/-- C1. In every run of either program the only transfer starts are the
device-to-host (receive) start immediately followed by the host-to-device
(send) start: the trace is `pre ++ [receive start, send start] ++ post` with no
transfer start in `pre` or `post`.  A run without this pair stopped in a
polling loop before the transfers and starts no transfer at all, so no send
start ever precedes a receive start. -/
theorem C1_receive_start_before_send_start (env : Env) :
    ((∃ pre post, traceOf (BareMetalDriver.main env) = pre ++
          [Event.XAxiDma_SimpleTransfer .RxBuffer 64 .XAXIDMA_DEVICE_TO_DMA,
           Event.XAxiDma_SimpleTransfer .TxBuffer 64 .XAXIDMA_DMA_TO_DEVICE] ++ post ∧
        (∀ e ∈ pre, isStart e = false) ∧ (∀ e ∈ post, isStart e = false)) ∨
      (completed (BareMetalDriver.main env) = false ∧
        ∀ e ∈ traceOf (BareMetalDriver.main env), isStart e = false)) ∧
    ((∃ pre post, traceOf (DmaAxisFifoTest.main env) = pre ++
          [Event.XAxiDma_SimpleTransfer .RxBuffer 32 .XAXIDMA_DEVICE_TO_DMA,
           Event.XAxiDma_SimpleTransfer .TxBuffer 32 .XAXIDMA_DMA_TO_DEVICE] ++ post ∧
        (∀ e ∈ pre, isStart e = false) ∧ (∀ e ∈ post, isStart e = false)) ∨
      (completed (DmaAxisFifoTest.main env) = false ∧
        ∀ e ∈ traceOf (DmaAxisFifoTest.main env), isStart e = false)) := by
  constructor
  · rcases BareMetalDriver.main_form env with ⟨hc, h⟩ | ⟨pre, key, p, rep, hpre, -, hrep, -, -, -, ht⟩
    · exact Or.inr ⟨hc, fun e he => (setup_excludes e (h e he)).1⟩
    · exact Or.inl (starts_in_order 64 _ _ _ p ht
        (fun e he => (BareMetalDriver.before_transfer_class pre key hpre e he).1)
        (fun e he => (tail_class 64 p rep hrep e he).1))
  · obtain ⟨pre, hpre, ⟨hc, ht⟩ | ⟨key, p, rep, -, hrep, -, -, -, ht⟩⟩ :=
      DmaAxisFifoTest.fifo_main_form env
    · refine Or.inr ⟨hc, ?_⟩
      rw [ht]
      intro e he
      have he2 : e ∈ DmaAxisFifoTest.init_events ++
          [Event.Xil_DCacheFlushRange .TxBuffer DmaAxisFifoTest.MEM_SIZE,
           Event.Xil_DCacheInvalidateRange .RxBuffer DmaAxisFifoTest.MEM_SIZE] ++ pre ++
          [Event.inbyte 0, Event.xil_printf, Event.gate_return] :=
        List.mem_append_left _ he
      exact (DmaAxisFifoTest.fifo_before_transfer_class pre 0 hpre e he2).1
    · exact Or.inl (starts_in_order 32 _ _ _ p ht
        (fun e he => (DmaAxisFifoTest.fifo_before_transfer_class pre key hpre e he).1)
        (fun e he => (tail_class 32 p rep hrep e he).1))

/-! ## C2: the outbound buffer is flushed before it is sent -/

/-- C2. In a run of either program that starts the send transfer, the trace is
`a ++ [flush TxBuffer len] ++ b ++ [send start of TxBuffer, len bytes] ++ c`
where `a` contains a host write to `TxBuffer`, neither `b` nor `c` contains
one, and there is no other send start; `len` is 64 in bare_metal_driver.c and
`MEM_SIZE = 32` in dma_axis_fifo_vitis_test.c.  So the flush comes after the
last write to `TxBuffer`, before the send start, nothing writes `TxBuffer` in
between, and the flushed range is the range sent.  A run without a send start
stopped in a polling loop before it. -/
theorem C2_flush_before_send (env : Env) :
    ((∃ a b c, traceOf (BareMetalDriver.main env) =
          a ++ [Event.Xil_DCacheFlushRange .TxBuffer 64] ++ b ++
            [Event.XAxiDma_SimpleTransfer .TxBuffer 64 .XAXIDMA_DMA_TO_DEVICE] ++ c ∧
        (∃ e ∈ a, isWrite .TxBuffer e = true) ∧
        (∀ e ∈ b ++ c, isWrite .TxBuffer e = false) ∧
        (∀ e ∈ a ++ b ++ c, isSendStart e = false)) ∨
      (completed (BareMetalDriver.main env) = false ∧
        ∀ e ∈ traceOf (BareMetalDriver.main env), isSendStart e = false)) ∧
    ((∃ a b c, traceOf (DmaAxisFifoTest.main env) =
          a ++ [Event.Xil_DCacheFlushRange .TxBuffer DmaAxisFifoTest.MEM_SIZE] ++ b ++
            [Event.XAxiDma_SimpleTransfer .TxBuffer DmaAxisFifoTest.MEM_SIZE
              .XAXIDMA_DMA_TO_DEVICE] ++ c ∧
        (∃ e ∈ a, isWrite .TxBuffer e = true) ∧
        (∀ e ∈ b ++ c, isWrite .TxBuffer e = false) ∧
        (∀ e ∈ a ++ b ++ c, isSendStart e = false)) ∨
      (completed (DmaAxisFifoTest.main env) = false ∧
        ∀ e ∈ traceOf (DmaAxisFifoTest.main env), isSendStart e = false)) ∧
    DmaAxisFifoTest.MEM_SIZE = 32 := by
  refine ⟨?_, ?_, rfl⟩
  · rcases BareMetalDriver.main_form env with ⟨hc, h⟩ | ⟨pre, key, p, rep, hpre, -, hrep, -, -, -, ht⟩
    · exact Or.inr ⟨hc, fun e he => (setup_excludes e (h e he)).2.1⟩
    · left
      have hbc : ∀ e ∈ [Event.Xil_DCacheInvalidateRange .RxBuffer 64,
            Event.XAxiDma_SimpleTransfer .RxBuffer 64 .XAXIDMA_DEVICE_TO_DMA] ++
          (send_poll_events p ++ recv_poll_events p ++
            (if p.isComplete then [Event.Xil_DCacheInvalidateRange .RxBuffer 64] ++ rep
             else [])),
          isWrite .TxBuffer e = false ∧ isSendStart e = false := by
        intro e he
        simp only [List.mem_append] at he
        rcases he with he | he | he
        · simp only [List.mem_cons, List.mem_singleton, List.mem_nil_iff, or_false] at he
          rcases he with rfl | rfl <;> simp [isWrite, isSendStart]
        · have h := poll_excludes e (polls_class p e (List.mem_append.2 he))
          exact ⟨h.2.2.2.2.1 _, h.2.1⟩
        · have h := tail_class 64 p rep hrep e he
          exact ⟨h.2.2.2.2 _, h.2.1⟩
      have ha : ∀ e ∈ pre ++ [Event.inbyte key, Event.xil_printf, Event.gate_return] ++
          (BareMetalDriver.fill_events ++ memset_events .RxBuffer 64),
          isSendStart e = false := by
        intro e he
        simp only [List.mem_append] at he
        rcases he with (he | he) | he
        · exact (setup_excludes e (hpre e he)).2.1
        · exact (gate_end_class key e he).2.1
        · exact (prepare_excludes e
            (BareMetalDriver.fill_memset_class.1 e (List.mem_append.2 he))).2.1
      refine ⟨pre ++ [Event.inbyte key, Event.xil_printf, Event.gate_return] ++
          (BareMetalDriver.fill_events ++ memset_events .RxBuffer 64),
        [Event.Xil_DCacheInvalidateRange .RxBuffer 64,
          Event.XAxiDma_SimpleTransfer .RxBuffer 64 .XAXIDMA_DEVICE_TO_DMA],
        send_poll_events p ++ recv_poll_events p ++
          (if p.isComplete then [Event.Xil_DCacheInvalidateRange .RxBuffer 64] ++ rep
           else []), ?_, ?_, ?_, ?_⟩
      · rw [ht]
        simp [BareMetalDriver.prepare_events, transfer_events, List.append_assoc]
      · exact ⟨Event.hostWrite .TxBuffer 63,
          List.mem_append_right _ BareMetalDriver.fill_memset_class.2, by simp [isWrite]⟩
      · intro e he
        exact (hbc e (by simpa [List.append_assoc] using he)).1
      · intro e he
        rw [List.append_assoc] at he
        rcases List.mem_append.1 he with he | he
        · exact ha e he
        · exact (hbc e he).2
  · obtain ⟨pre, hpre, ⟨hc, ht⟩ | ⟨key, p, rep, -, hrep, -, -, -, ht⟩⟩ :=
      DmaAxisFifoTest.fifo_main_form env
    · refine Or.inr ⟨hc, ?_⟩
      rw [ht]
      intro e he
      exact (DmaAxisFifoTest.fifo_before_transfer_class pre 0 hpre e
        (List.mem_append_left _ he)).2.1
    · left
      have hbc : ∀ e ∈ ([Event.Xil_DCacheInvalidateRange .RxBuffer DmaAxisFifoTest.MEM_SIZE] ++
            pre ++ [Event.inbyte key, Event.xil_printf, Event.gate_return] ++
            [Event.XAxiDma_SimpleTransfer .RxBuffer DmaAxisFifoTest.MEM_SIZE
              .XAXIDMA_DEVICE_TO_DMA]) ++
          (send_poll_events p ++ recv_poll_events p ++
            (if p.isComplete then
              [Event.Xil_DCacheInvalidateRange .RxBuffer DmaAxisFifoTest.MEM_SIZE] ++ rep
             else [])),
          isWrite .TxBuffer e = false ∧ isSendStart e = false := by
        intro e he
        simp only [List.mem_append] at he
        rcases he with (((he | he) | he) | he) | he | he
        · rw [List.mem_singleton.1 he]; simp [isWrite, isSendStart]
        · have h := setup_excludes e (hpre e he)
          exact ⟨h.2.2.2.2.2.1 _, h.2.1⟩
        · have h := gate_end_class key e he
          exact ⟨h.2.2.2.2.1 _, h.2.1⟩
        · rw [List.mem_singleton.1 he]; simp [isWrite, isSendStart]
        · have h := poll_excludes e (polls_class p e (List.mem_append.2 he))
          exact ⟨h.2.2.2.2.1 _, h.2.1⟩
        · have h := tail_class DmaAxisFifoTest.MEM_SIZE p rep hrep e he
          exact ⟨h.2.2.2.2 _, h.2.1⟩
      refine ⟨DmaAxisFifoTest.init_events,
        [Event.Xil_DCacheInvalidateRange .RxBuffer DmaAxisFifoTest.MEM_SIZE] ++
            pre ++ [Event.inbyte key, Event.xil_printf, Event.gate_return] ++
            [Event.XAxiDma_SimpleTransfer .RxBuffer DmaAxisFifoTest.MEM_SIZE
              .XAXIDMA_DEVICE_TO_DMA],
        send_poll_events p ++ recv_poll_events p ++
          (if p.isComplete then
            [Event.Xil_DCacheInvalidateRange .RxBuffer DmaAxisFifoTest.MEM_SIZE] ++ rep
           else []), ?_, ?_, ?_, ?_⟩
      · rw [ht]
        simp [transfer_events, List.append_assoc]
      · exact ⟨Event.hostWrite .TxBuffer 31, DmaAxisFifoTest.init_events_class.2,
          by simp [isWrite]⟩
      · intro e he
        exact (hbc e he).1
      · intro e he
        rw [List.append_assoc] at he
        rcases List.mem_append.1 he with he | he
        · exact (init_excludes e (DmaAxisFifoTest.init_events_class.1 e he)).2.1
        · exact (hbc e he).2

/-! ## C3: the inbound buffer is invalidated before it is read -/

theorem transfer_events_complete (len n m : Nat) :
    transfer_events len (.complete n m) = start_events len ++ finished_polls n m := by
  simp [transfer_events, start_events, finished_polls, send_poll_events, recv_poll_events,
    List.append_assoc]

theorem reads_after_invalidate (len : Nat) (r : Except St St) (a rep : List Event)
    (p : Progress) (ha : ∀ e ∈ a, isStart e = false)
    (hrep : ∀ e ∈ rep, isReport e = true) (hread : Event.hostRead .RxBuffer 0 ∈ rep)
    (hc : completed r = p.isComplete)
    (ht : traceOf r = a ++ transfer_events len p ++
      (if p.isComplete then [Event.Xil_DCacheInvalidateRange .RxBuffer len] ++ rep else [])) :
    (∃ a n m b, completed r = true ∧
        traceOf r = a ++ start_events len ++ finished_polls n m ++
          [Event.Xil_DCacheInvalidateRange .RxBuffer len] ++ b ∧
        (∀ e ∈ a, isStart e = false) ∧
        (∀ e ∈ b, isWrite .RxBuffer e = false ∧ isStart e = false) ∧
        (∃ e ∈ b, isRead .RxBuffer e = true)) ∨
      (completed r = false ∧ ∃ a w, traceOf r = a ++ w ∧
        (∀ e ∈ a, isStart e = false) ∧ (∀ e ∈ w, isRead .RxBuffer e = false)) := by
  cases p with
  | complete n m =>
    left
    refine ⟨a, n, m, rep, by rw [hc]; rfl, ?_, ha, ?_, ⟨_, hread, by simp [isRead]⟩⟩
    · rw [ht, transfer_events_complete]
      simp [Progress.isComplete, List.append_assoc]
    · intro e he
      have h := report_excludes e (hrep e he)
      exact ⟨h.2.2.2.2.2 _, h.1⟩
  | send_busy n =>
    right
    refine ⟨by rw [hc]; rfl, a, transfer_events len (.send_busy n), ?_, ha, ?_⟩
    · rw [ht]; simp [Progress.isComplete]
    · intro e he
      rw [transfer_events_eq] at he
      rcases List.mem_append.1 he with he | he
      · simp only [start_events, List.mem_cons, List.mem_singleton, List.mem_nil_iff,
          or_false] at he
        rcases he with rfl | rfl <;> simp [isRead]
      · exact (poll_excludes e (polls_class _ e he)).2.2.2.2.2.1 _
  | recv_busy n m =>
    right
    refine ⟨by rw [hc]; rfl, a, transfer_events len (.recv_busy n m), ?_, ha, ?_⟩
    · rw [ht]; simp [Progress.isComplete]
    · intro e he
      rw [transfer_events_eq] at he
      rcases List.mem_append.1 he with he | he
      · simp only [start_events, List.mem_cons, List.mem_singleton, List.mem_nil_iff,
          or_false] at he
        rcases he with rfl | rfl <;> simp [isRead]
      · exact (poll_excludes e (polls_class _ e he)).2.2.2.2.2.1 _

/-- C3. In a completed run of either program the trace is
`a ++ start_events len ++ finished_polls n m ++ [invalidate RxBuffer len] ++ b`:
after the two transfer starts come only the polls of the send direction ending
in a not-busy answer, the polls of the receive direction ending in a not-busy
answer, and then the invalidate of `RxBuffer` over the `len` bytes transferred
(64, resp. `MEM_SIZE`); `b`, which holds every host read of `RxBuffer` made
after the starts, contains no host write to `RxBuffer` and no transfer start.
In a run that was still polling, no host read of `RxBuffer` follows a transfer
start. -/
theorem C3_invalidate_before_read (env : Env) :
    ((∃ a n m b, completed (BareMetalDriver.main env) = true ∧
        traceOf (BareMetalDriver.main env) = a ++ start_events 64 ++ finished_polls n m ++
          [Event.Xil_DCacheInvalidateRange .RxBuffer 64] ++ b ∧
        (∀ e ∈ a, isStart e = false) ∧
        (∀ e ∈ b, isWrite .RxBuffer e = false ∧ isStart e = false) ∧
        (∃ e ∈ b, isRead .RxBuffer e = true)) ∨
      (completed (BareMetalDriver.main env) = false ∧
        ∃ a w, traceOf (BareMetalDriver.main env) = a ++ w ∧
          (∀ e ∈ a, isStart e = false) ∧ (∀ e ∈ w, isRead .RxBuffer e = false))) ∧
    ((∃ a n m b, completed (DmaAxisFifoTest.main env) = true ∧
        traceOf (DmaAxisFifoTest.main env) =
          a ++ start_events DmaAxisFifoTest.MEM_SIZE ++ finished_polls n m ++
          [Event.Xil_DCacheInvalidateRange .RxBuffer DmaAxisFifoTest.MEM_SIZE] ++ b ∧
        (∀ e ∈ a, isStart e = false) ∧
        (∀ e ∈ b, isWrite .RxBuffer e = false ∧ isStart e = false) ∧
        (∃ e ∈ b, isRead .RxBuffer e = true)) ∨
      (completed (DmaAxisFifoTest.main env) = false ∧
        ∃ a w, traceOf (DmaAxisFifoTest.main env) = a ++ w ∧
          (∀ e ∈ a, isStart e = false) ∧ (∀ e ∈ w, isRead .RxBuffer e = false))) := by
  constructor
  · rcases BareMetalDriver.main_form env with
      ⟨hc, h⟩ | ⟨pre, key, p, rep, hpre, -, hrep, hread, -, hc, ht⟩
    · exact Or.inr ⟨hc, _, [], (List.append_nil _).symm,
        fun e he => (setup_excludes e (h e he)).1, by simp⟩
    · exact reads_after_invalidate 64 _ _ rep p
        (fun e he => (BareMetalDriver.before_transfer_class pre key hpre e he).1)
        hrep hread hc ht
  · obtain ⟨pre, hpre, ⟨hc, ht⟩ | ⟨key, p, rep, -, hrep, hread, -, hc, ht⟩⟩ :=
      DmaAxisFifoTest.fifo_main_form env
    · refine Or.inr ⟨hc, _, [], (List.append_nil _).symm, ?_, by simp⟩
      rw [ht]
      intro e he
      exact (DmaAxisFifoTest.fifo_before_transfer_class pre 0 hpre e
        (List.mem_append_left _ he)).1
    · exact reads_after_invalidate DmaAxisFifoTest.MEM_SIZE _ _ rep p
        (fun e he => (DmaAxisFifoTest.fifo_before_transfer_class pre key hpre e he).1)
        hrep hread hc ht

/-! ## When a run returns -/

theorem status_polls_done (l : List Nat) :
    (status_polls l).2.isSome = l.any (fun v => v &&& 0x02 != 0) := by
  induction l with
  | nil => rfl
  | cons v t ih =>
    by_cases hv : v &&& 0x02 = 0
    · simp [status_polls, hv, ih]
    · simp [status_polls, hv]

theorem inbyte_polls_done (l : List Nat) :
    (inbyte_polls l).2.isSome = l.any (fun c => c != 0) := by
  induction l with
  | nil => rfl
  | cons c t ih =>
    by_cases hc : c = 0
    · simp [inbyte_polls, hc, ih]
    · simp [inbyte_polls, hc]

theorem busy_polls_count (d : Dir) (l : List Bool) :
    ((busy_polls d l).2 = none ∧ l.count false = 0) ∨
      ∃ rest, (busy_polls d l).2 = some rest ∧ l.count false = rest.count false + 1 := by
  induction l with
  | nil => exact Or.inl ⟨rfl, rfl⟩
  | cons b t ih =>
    cases b with
    | false => exact Or.inr ⟨t, rfl, by simp⟩
    | true =>
      rcases ih with ⟨h, hc⟩ | ⟨rest, h, hc⟩
      · exact Or.inl ⟨by simp [busy_polls, h], by simp [hc]⟩
      · exact Or.inr ⟨rest, by simp [busy_polls, h], by simp [hc]⟩

theorem wait_key_expansion_done (s : St) :
    ∃ s1, s1.uart = s.uart ∧ s1.dmaBusy = s.dmaBusy ∧
      wait_key_expansion s =
        if s.aesStatus.any (fun v => v &&& 0x02 != 0) then .ok s1 else .error s1 := by
  have h := status_polls_done s.aesStatus
  unfold wait_key_expansion
  rcases hp : status_polls s.aesStatus with ⟨ev, _ | rest⟩
  · rw [hp] at h
    refine ⟨{ s with trace := s.trace ++ ev, aesStatus := [] }, rfl, rfl, ?_⟩
    rw [← h]
    rfl
  · rw [hp] at h
    refine ⟨{ s with trace := s.trace ++ ev, aesStatus := rest }, rfl, rfl, ?_⟩
    rw [← h]
    rfl

theorem wait_for_key_done (s : St) :
    ∃ s1, s1.dmaBusy = s.dmaBusy ∧
      wait_for_key s = if s.uart.any (fun c => c != 0) then .ok s1 else .error s1 := by
  have h := inbyte_polls_done s.uart
  unfold wait_for_key
  rcases hp : inbyte_polls s.uart with ⟨ev, _ | rest⟩
  · rw [hp] at h
    refine ⟨{ s with trace := s.trace ++ ev, uart := [] }, rfl, ?_⟩
    rw [← h]
    rfl
  · rw [hp] at h
    refine ⟨{ s with trace := s.trace ++ ev, uart := rest }, rfl, ?_⟩
    rw [← h]
    rfl

theorem wait_not_busy_done (d : Dir) (s : St) :
    (s.dmaBusy.count false = 0 ∧ ∃ s1, wait_not_busy d s = .error s1) ∨
      ∃ s1, wait_not_busy d s = .ok s1 ∧
        s.dmaBusy.count false = s1.dmaBusy.count false + 1 := by
  unfold wait_not_busy
  rcases busy_polls_count d s.dmaBusy with ⟨h, hc⟩ | ⟨rest, h, hc⟩
  · left
    rcases hp : busy_polls d s.dmaBusy with ⟨ev, r⟩
    rw [hp] at h
    simp only at h
    subst h
    exact ⟨hc, _, rfl⟩
  · right
    rcases hp : busy_polls d s.dmaBusy with ⟨ev, r⟩
    rw [hp] at h
    simp only at h
    subst h
    refine ⟨_, rfl, ?_⟩
    rw [hc]
    cases d <;> rfl

theorem transfer_section_done (s : St) (g : St → St) :
    completed (wait_not_busy .XAXIDMA_DMA_TO_DEVICE s >>=
      fun s2 => wait_not_busy .XAXIDMA_DEVICE_TO_DMA s2 >>= fun s3 => pure (g s3)) =
      decide (2 ≤ s.dmaBusy.count false) := by
  rcases wait_not_busy_done .XAXIDMA_DMA_TO_DEVICE s with ⟨hc, s1, h⟩ | ⟨s1, h, hc⟩
  · rw [h, hc]
    rfl
  · rcases wait_not_busy_done .XAXIDMA_DEVICE_TO_DMA s1 with ⟨hc2, s2, h2⟩ | ⟨s2, h2, hc2⟩
    · simp only [h, h2, bind, Except.bind, completed, hc, hc2]
      rfl
    · simp only [h, h2, bind, Except.bind, completed, pure, Except.pure, hc, hc2]
      exact (decide_eq_true (by omega)).symm

theorem store_busy (b : Buf) (i v : Nat) (s : St) : (store b i v s).dmaBusy = s.dmaBusy := by
  cases b <;> rfl

theorem store_uart (b : Buf) (i v : Nat) (s : St) : (store b i v s).uart = s.uart := by
  cases b <;> rfl

theorem emit_busy (es : List Event) (s : St) : (emit es s).dmaBusy = s.dmaBusy := rfl

theorem emit_uart (es : List Event) (s : St) : (emit es s).uart = s.uart := rfl

theorem transfer_busy (b : Buf) (len : Nat) (d : Dir) (s : St) :
    (XAxiDma_SimpleTransfer b len d s).dmaBusy = s.dmaBusy := by
  cases d <;> rfl

theorem completed_bind (x : Except St St) (f : St → Except St St) :
    completed (x >>= f) = match x with
      | .ok s => completed (f s)
      | .error _ => false := by
  cases x <;> rfl

theorem completed_bind_pure (x : Except St St) (g : St → St) :
    completed (x >>= fun s => pure (g s)) = completed x := by
  cases x <;> rfl

theorem memset_busy (c n : Nat) (s : St) : (memset .RxBuffer c n s).dmaBusy = s.dmaBusy :=
  forLoop_inv (fun s => s.dmaBusy) (fun j => store .RxBuffer j c)
    (fun _ _ => store_busy _ _ _ _) n s

namespace BareMetalDriver

theorem fill_tx_busy (pat : List Nat) (s : St) : (fill_tx pat s).dmaBusy = s.dmaBusy :=
  forLoop_inv (fun s => s.dmaBusy) (fun i => memcpy .TxBuffer (i * 16) pat 16)
    (fun i s => forLoop_inv (fun s => s.dmaBusy)
      (fun j => store .TxBuffer (i * 16 + j) (pat.getD j 0))
      (fun _ _ => store_busy _ _ _ _) 16 s) 4 s

theorem wait_for_ila_setup_done (s : St) :
    ∃ s1, s1.dmaBusy = s.dmaBusy ∧
      wait_for_ila_setup s = if s.uart.any (fun c => c != 0) then .ok s1 else .error s1 := by
  obtain ⟨s1, hb, h⟩ := wait_for_key_done
    (emit [.xil_printf, .xil_printf, .xil_printf, .xil_printf] s)
  have hw : wait_for_ila_setup s =
      wait_for_key (emit [.xil_printf, .xil_printf, .xil_printf, .xil_printf] s) >>=
        fun s => pure (emit [.gate_return] (emit [.xil_printf] s)) := rfl
  have hu : (emit [Event.xil_printf, .xil_printf, .xil_printf, .xil_printf] s).uart = s.uart :=
    rfl
  rw [hw, h, hu]
  by_cases c : s.uart.any (fun c => c != 0) = true
  · exact ⟨emit [.gate_return] (emit [.xil_printf] s1), hb, by rw [if_pos c, if_pos c]; rfl⟩
  · exact ⟨s1, hb, by rw [if_neg c]; rfl⟩

theorem run_backpressure_test_done (s : St) :
    completed (run_backpressure_test s) = decide (2 ≤ s.dmaBusy.count false) := by
  have h := transfer_section_done
    (XAxiDma_SimpleTransfer .TxBuffer 64 .XAXIDMA_DMA_TO_DEVICE
      (XAxiDma_SimpleTransfer .RxBuffer 64 .XAXIDMA_DEVICE_TO_DMA
        (emit [.Xil_DCacheInvalidateRange .RxBuffer 64]
          (emit [.Xil_DCacheFlushRange .TxBuffer 64]
            (memset .RxBuffer 0 64 (fill_tx pattern s))))))
    (fun s3 => forLoop 4 report_block
      (print_hex .local_array 0 16 (emit [.xil_printf]
        (print_hex .local_array 0 16 (emit [.xil_printf, .xil_printf]
          (emit [.Xil_DCacheInvalidateRange .RxBuffer 64] s3))))))
  have hb : (XAxiDma_SimpleTransfer .TxBuffer 64 .XAXIDMA_DMA_TO_DEVICE
      (XAxiDma_SimpleTransfer .RxBuffer 64 .XAXIDMA_DEVICE_TO_DMA
        (emit [.Xil_DCacheInvalidateRange .RxBuffer 64]
          (emit [.Xil_DCacheFlushRange .TxBuffer 64]
            (memset .RxBuffer 0 64 (fill_tx pattern s)))))).dmaBusy = s.dmaBusy := by
    rw [transfer_busy, transfer_busy, emit_busy, emit_busy, memset_busy, fill_tx_busy]
  rw [hb] at h
  exact h

theorem main_completed (env : Env) : completed (main env) = answers_suffice env := by
  generalize hs0 : emit [Event.Xil_Out32 0x00 0, .Xil_Out32 0x04 0, .Xil_Out32 0x08 0,
      .Xil_Out32 0x0C 0, .Xil_Out32 0x14 0x1, .Xil_Out32 0x14 0x0]
    (emit [Event.XAxiDma_LookupConfig, .XAxiDma_CfgInitialize,
      .XAxiDma_IntrDisable .XAXIDMA_DEVICE_TO_DMA, .XAxiDma_IntrDisable .XAXIDMA_DMA_TO_DEVICE]
      (emit [Event.xil_printf] (boot env))) = s0
  have hmain : main env = wait_key_expansion s0 >>= fun s => wait_for_ila_setup s >>=
      fun s => run_backpressure_test s >>= fun s => pure (emit [.xil_printf] s) := by
    rw [← hs0]
    rfl
  have hu : s0.uart = env.uart := by rw [← hs0]; rfl
  have hb : s0.dmaBusy = env.dmaBusy := by rw [← hs0]; rfl
  have hst : s0.aesStatus = env.aesStatus := by rw [← hs0]; rfl
  obtain ⟨s1, hu1, hb1, h1⟩ := wait_key_expansion_done s0
  obtain ⟨s2, hb2, h2⟩ := wait_for_ila_setup_done s1
  rw [hmain, completed_bind, h1, hst, answers_suffice]
  by_cases c1 : env.aesStatus.any (fun v => v &&& 0x02 != 0) = true
  · rw [if_pos c1, c1]
    show completed (wait_for_ila_setup s1 >>= _) = _
    rw [completed_bind, h2, hu1, hu]
    by_cases c2 : env.uart.any (fun c => c != 0) = true
    · rw [if_pos c2, c2]
      show completed (run_backpressure_test s2 >>= _) = _
      rw [completed_bind_pure, run_backpressure_test_done, hb2, hb1, hb]
      rfl
    · rw [if_neg c2]
      simp only [Bool.not_eq_true] at c2
      rw [c2]
      rfl
  · rw [if_neg c1]
    simp only [Bool.not_eq_true] at c1
    rw [c1]
    rfl

end BareMetalDriver

namespace DmaAxisFifoTest

theorem fifo_wait_for_ila_setup_done (s : St) :
    ∃ s1, s1.dmaBusy = s.dmaBusy ∧
      wait_for_ila_setup s = if s.uart.any (fun c => c != 0) then .ok s1 else .error s1 := by
  obtain ⟨s1, hb, h⟩ := wait_for_key_done (emit (List.replicate 11 .xil_printf) s)
  have hw : wait_for_ila_setup s =
      wait_for_key (emit (List.replicate 11 .xil_printf) s) >>=
        fun s => pure (emit [.gate_return] (emit [.xil_printf] s)) := rfl
  have hu : (emit (List.replicate 11 Event.xil_printf) s).uart = s.uart := rfl
  rw [hw, h, hu]
  by_cases c : s.uart.any (fun c => c != 0) = true
  · exact ⟨emit [.gate_return] (emit [.xil_printf] s1), hb, by rw [if_pos c, if_pos c]; rfl⟩
  · exact ⟨s1, hb, by rw [if_neg c]; rfl⟩

theorem fifo_main_completed (env : Env) : completed (main env) = answers_suffice env := by
  generalize hs0 : emit [Event.Xil_DCacheInvalidateRange .RxBuffer MEM_SIZE]
    (emit [Event.Xil_DCacheFlushRange .TxBuffer MEM_SIZE]
      (print_buffer .RxBuffer MEM_SIZE (print_buffer .TxBuffer MEM_SIZE (prepare_buffers
        (emit [Event.XAxiDma_LookupConfig, .XAxiDma_CfgInitialize,
          .XAxiDma_IntrDisable .XAXIDMA_DEVICE_TO_DMA,
          .XAxiDma_IntrDisable .XAXIDMA_DMA_TO_DEVICE]
          (emit [Event.xil_printf] (boot env))))))) = s0
  have hmain : main env = wait_for_ila_setup s0 >>= fun s =>
      wait_not_busy .XAXIDMA_DMA_TO_DEVICE
        (XAxiDma_SimpleTransfer .TxBuffer MEM_SIZE .XAXIDMA_DMA_TO_DEVICE
          (XAxiDma_SimpleTransfer .RxBuffer MEM_SIZE .XAXIDMA_DEVICE_TO_DMA s)) >>=
        fun s2 => wait_not_busy .XAXIDMA_DEVICE_TO_DMA s2 >>= fun s3 =>
          pure (emit [.xil_printf] (emit [.compare_result (buffers_equal
            (emit compare_reads (print_buffer .RxBuffer MEM_SIZE
              (emit [.Xil_DCacheInvalidateRange .RxBuffer MEM_SIZE] s3))))]
            (emit compare_reads (print_buffer .RxBuffer MEM_SIZE
              (emit [.Xil_DCacheInvalidateRange .RxBuffer MEM_SIZE] s3))))) := by
    rw [← hs0]
    rfl
  have hpb : ∀ (b : Buf) (s : St), (print_buffer b MEM_SIZE s).dmaBusy = s.dmaBusy ∧
      (print_buffer b MEM_SIZE s).uart = s.uart := by
    intro b s
    simp only [print_buffer, emit_busy, emit_uart]
    constructor
    · exact forLoop_inv (fun s => s.dmaBusy) (fun i s =>
          if (i + 1) % 16 = 0 then
            emit [Event.xil_printf] (emit [Event.hostRead b i, .xil_printf] s)
          else emit [Event.hostRead b i, .xil_printf] s)
        (fun i s => by by_cases h : (i + 1) % 16 = 0 <;> simp [h, emit_busy]) MEM_SIZE _
    · exact forLoop_inv (fun s => s.uart) (fun i s =>
          if (i + 1) % 16 = 0 then
            emit [Event.xil_printf] (emit [Event.hostRead b i, .xil_printf] s)
          else emit [Event.hostRead b i, .xil_printf] s)
        (fun i s => by by_cases h : (i + 1) % 16 = 0 <;> simp [h, emit_uart]) MEM_SIZE _
  have hprep : ∀ s : St, (prepare_buffers s).dmaBusy = s.dmaBusy ∧
      (prepare_buffers s).uart = s.uart := fun s =>
    ⟨forLoop_inv (fun s => s.dmaBusy)
        (fun i s => store .RxBuffer i 0x00 (store .TxBuffer i 0xFF s))
        (fun _ _ => (store_busy _ _ _ _).trans (store_busy _ _ _ _)) MEM_SIZE s,
      forLoop_inv (fun s => s.uart)
        (fun i s => store .RxBuffer i 0x00 (store .TxBuffer i 0xFF s))
        (fun _ _ => (store_uart _ _ _ _).trans (store_uart _ _ _ _)) MEM_SIZE s⟩
  have hu : s0.uart = env.uart := by
    rw [← hs0, emit_uart, emit_uart, (hpb _ _).2, (hpb _ _).2, (hprep _).2]
    rfl
  have hb : s0.dmaBusy = env.dmaBusy := by
    rw [← hs0, emit_busy, emit_busy, (hpb _ _).1, (hpb _ _).1, (hprep _).1]
    rfl
  obtain ⟨s1, hb1, h1⟩ := fifo_wait_for_ila_setup_done s0
  rw [hmain, completed_bind, h1, hu, answers_suffice]
  by_cases c : env.uart.any (fun c => c != 0) = true
  · rw [if_pos c, c]
    have h3 := transfer_section_done
      (XAxiDma_SimpleTransfer .TxBuffer MEM_SIZE .XAXIDMA_DMA_TO_DEVICE
        (XAxiDma_SimpleTransfer .RxBuffer MEM_SIZE .XAXIDMA_DEVICE_TO_DMA s1))
      (fun s3 => emit [.xil_printf] (emit [.compare_result (buffers_equal
        (emit compare_reads (print_buffer .RxBuffer MEM_SIZE
          (emit [.Xil_DCacheInvalidateRange .RxBuffer MEM_SIZE] s3))))]
        (emit compare_reads (print_buffer .RxBuffer MEM_SIZE
          (emit [.Xil_DCacheInvalidateRange .RxBuffer MEM_SIZE] s3)))))
    have hb3 : (XAxiDma_SimpleTransfer .TxBuffer MEM_SIZE .XAXIDMA_DMA_TO_DEVICE
        (XAxiDma_SimpleTransfer .RxBuffer MEM_SIZE .XAXIDMA_DEVICE_TO_DMA s1)).dmaBusy =
        env.dmaBusy := by
      rw [transfer_busy, transfer_busy]
      exact hb1.trans hb
    rw [hb3] at h3
    simpa using h3
  · rw [if_neg c]
    simp only [Bool.not_eq_true] at c
    rw [c]
    rfl

end DmaAxisFifoTest

/-! ## The session state machine along a trace -/

theorem stepsOk_append (σ : Session) (a b : List Event) :
    σ.stepsOk (a ++ b) = (σ.stepsOk a && (a.foldl Session.observe σ).stepsOk b) := by
  induction a generalizing σ with
  | nil => simp [Session.stepsOk]
  | cons e t ih => simp [Session.stepsOk, ih, Bool.and_assoc]

theorem stepsOk_sound (σ : Session) (t : List Event) (h : σ.stepsOk t = true) :
    ∀ u e v, t = u ++ e :: v → (u.foldl Session.observe σ).stepOk e = true := by
  intro u
  induction u generalizing σ t with
  | nil =>
    intro e v ht
    subst ht
    simp only [List.nil_append, Session.stepsOk, Bool.and_eq_true] at h
    exact h.1
  | cons x u ih =>
    intro e v ht
    subst ht
    simp only [List.cons_append, Session.stepsOk, Bool.and_eq_true] at h
    exact ih _ _ h.2 e v rfl

theorem observe_neutral (σ : Session) (e : Event)
    (h1 : isStart e = false) (h2 : isPoll e = false) : σ.observe e = σ := by
  cases e <;> simp_all [Session.observe, isStart, isPoll]

theorem neutral_steps (σ : Session) (a : List Event)
    (h : ∀ e ∈ a, isStart e = false ∧ isPoll e = false ∧
      (isVerdict e = false ∨ σ.phase = .Complete)) :
    σ.stepsOk a = true ∧ a.foldl Session.observe σ = σ := by
  induction a with
  | nil => exact ⟨rfl, rfl⟩
  | cons e t ih =>
    have he := h e (List.mem_cons_self _ _)
    have ht := ih (fun x hx => h x (List.mem_cons_of_mem _ hx))
    have ho := observe_neutral σ e he.1 he.2.1
    refine ⟨?_, ?_⟩
    · simp only [Session.stepsOk, Session.stepOk, ho, ht.1, Bool.and_true, beq_self_eq_true,
        Bool.true_or, Bool.true_and]
      rcases he.2.2 with hv | hc
      · simp [hv]
      · simp [hc]
    · simp only [List.foldl_cons, ho, ht.2]

theorem send_busy_steps (n : Nat) (pl : Bool) :
    Session.stepsOk ⟨true, true, pl, false, false⟩
        (List.replicate n (Event.XAxiDma_Busy .XAXIDMA_DMA_TO_DEVICE true)) = true ∧
      ∃ pl2, (List.replicate n (Event.XAxiDma_Busy .XAXIDMA_DMA_TO_DEVICE true)).foldl
        Session.observe ⟨true, true, pl, false, false⟩ = ⟨true, true, pl2, false, false⟩ := by
  induction n generalizing pl with
  | zero => exact ⟨rfl, pl, rfl⟩
  | succ n ih =>
    obtain ⟨h1, pl2, h2⟩ := ih true
    refine ⟨?_, pl2, ?_⟩
    · rw [List.replicate_succ, Session.stepsOk]
      have hs : Session.stepOk ⟨true, true, pl, false, false⟩
          (Event.XAxiDma_Busy .XAXIDMA_DMA_TO_DEVICE true) = true := by
        cases pl <;> rfl
      rw [hs]
      exact h1
    · rw [List.replicate_succ, List.foldl_cons]
      exact h2

theorem recv_busy_steps (n : Nat) :
    Session.stepsOk ⟨true, true, true, true, false⟩
        (List.replicate n (Event.XAxiDma_Busy .XAXIDMA_DEVICE_TO_DMA true)) = true ∧
      (List.replicate n (Event.XAxiDma_Busy .XAXIDMA_DEVICE_TO_DMA true)).foldl
        Session.observe ⟨true, true, true, true, false⟩ = ⟨true, true, true, true, false⟩ := by
  induction n with
  | zero => exact ⟨rfl, rfl⟩
  | succ n ih =>
    refine ⟨?_, ?_⟩
    · rw [List.replicate_succ, Session.stepsOk]
      exact ih.1
    · rw [List.replicate_succ, List.foldl_cons]
      exact ih.2

/-- The session machine accepts every trace of the form the two programs
produce, and ends in `Complete` exactly when both polling loops were left. -/
theorem session_steps (len : Nat) (a rep : List Event) (p : Progress)
    (ha : ∀ e ∈ a, isStart e = false ∧ isPoll e = false ∧ isVerdict e = false)
    (hrep : ∀ e ∈ rep, isReport e = true) :
    Session.idle.stepsOk (a ++ transfer_events len p ++
      (if p.isComplete then [Event.Xil_DCacheInvalidateRange .RxBuffer len] ++ rep
       else [])) = true ∧
    ((sessionAfter (a ++ transfer_events len p ++
      (if p.isComplete then [Event.Xil_DCacheInvalidateRange .RxBuffer len] ++ rep
       else []))).phase = .Complete ↔ p.isComplete = true) := by
  obtain ⟨hoa, hfa⟩ := neutral_steps Session.idle a
    (fun e he => ⟨(ha e he).1, (ha e he).2.1, Or.inl (ha e he).2.2⟩)
  have hst : Session.idle.stepsOk (start_events len) = true ∧
      (start_events len).foldl Session.observe Session.idle =
        ⟨true, true, false, false, false⟩ := ⟨rfl, rfl⟩
  cases p with
  | send_busy n =>
    obtain ⟨h1, pl2, h2⟩ := send_busy_steps n false
    have e : a ++ transfer_events len (.send_busy n) ++
        (if (Progress.send_busy n).isComplete then
          [Event.Xil_DCacheInvalidateRange .RxBuffer len] ++ rep else []) =
        a ++ (start_events len ++
          List.replicate n (Event.XAxiDma_Busy .XAXIDMA_DMA_TO_DEVICE true)) := by
      simp [transfer_events, start_events, send_poll_events, recv_poll_events,
        Progress.isComplete]
    rw [e]
    refine ⟨?_, ?_⟩
    · rw [stepsOk_append, hoa, hfa, stepsOk_append, hst.1, hst.2, h1]
      rfl
    · rw [sessionAfter, List.foldl_append, hfa, List.foldl_append, hst.2, h2]
      cases pl2 <;> simp [Session.phase, Progress.isComplete]
  | recv_busy n m =>
    obtain ⟨h1, pl2, h2⟩ := send_busy_steps n false
    obtain ⟨h3, h4⟩ := recv_busy_steps m
    have e : a ++ transfer_events len (.recv_busy n m) ++
        (if (Progress.recv_busy n m).isComplete then
          [Event.Xil_DCacheInvalidateRange .RxBuffer len] ++ rep else []) =
        a ++ (start_events len ++
          (List.replicate n (Event.XAxiDma_Busy .XAXIDMA_DMA_TO_DEVICE true) ++
            ([Event.XAxiDma_Busy .XAXIDMA_DMA_TO_DEVICE false] ++
              List.replicate m (Event.XAxiDma_Busy .XAXIDMA_DEVICE_TO_DMA true)))) := by
      simp [transfer_events, start_events, send_poll_events, recv_poll_events,
        Progress.isComplete]
    have hx : Session.stepsOk ⟨true, true, pl2, false, false⟩
          [Event.XAxiDma_Busy .XAXIDMA_DMA_TO_DEVICE false] = true ∧
        [Event.XAxiDma_Busy .XAXIDMA_DMA_TO_DEVICE false].foldl Session.observe
          ⟨true, true, pl2, false, false⟩ = ⟨true, true, true, true, false⟩ := by
      cases pl2 <;> exact ⟨rfl, rfl⟩
    rw [e]
    refine ⟨?_, ?_⟩
    · rw [stepsOk_append, hoa, hfa, stepsOk_append, hst.1, hst.2, stepsOk_append, h1, h2,
        stepsOk_append, hx.1, hx.2, h3]
      rfl
    · rw [sessionAfter, List.foldl_append, hfa, List.foldl_append, hst.2, List.foldl_append,
        h2, List.foldl_append, hx.2, h4]
      simp [Session.phase, Progress.isComplete]
  | complete n m =>
    obtain ⟨h1, pl2, h2⟩ := send_busy_steps n false
    obtain ⟨h3, h4⟩ := recv_busy_steps m
    have e : a ++ transfer_events len (.complete n m) ++
        (if (Progress.complete n m).isComplete then
          [Event.Xil_DCacheInvalidateRange .RxBuffer len] ++ rep else []) =
        a ++ (start_events len ++
          (List.replicate n (Event.XAxiDma_Busy .XAXIDMA_DMA_TO_DEVICE true) ++
            ([Event.XAxiDma_Busy .XAXIDMA_DMA_TO_DEVICE false] ++
              (List.replicate m (Event.XAxiDma_Busy .XAXIDMA_DEVICE_TO_DMA true) ++
                ([Event.XAxiDma_Busy .XAXIDMA_DEVICE_TO_DMA false] ++
                  ([Event.Xil_DCacheInvalidateRange .RxBuffer len] ++ rep)))))) := by
      simp [transfer_events, start_events, send_poll_events, recv_poll_events,
        Progress.isComplete]
    have hx : Session.stepsOk ⟨true, true, pl2, false, false⟩
          [Event.XAxiDma_Busy .XAXIDMA_DMA_TO_DEVICE false] = true ∧
        [Event.XAxiDma_Busy .XAXIDMA_DMA_TO_DEVICE false].foldl Session.observe
          ⟨true, true, pl2, false, false⟩ = ⟨true, true, true, true, false⟩ := by
      cases pl2 <;> exact ⟨rfl, rfl⟩
    have hy : Session.stepsOk ⟨true, true, true, true, false⟩
          [Event.XAxiDma_Busy .XAXIDMA_DEVICE_TO_DMA false] = true ∧
        [Event.XAxiDma_Busy .XAXIDMA_DEVICE_TO_DMA false].foldl Session.observe
          ⟨true, true, true, true, false⟩ = ⟨true, true, true, true, true⟩ := ⟨rfl, rfl⟩
    obtain ⟨hr1, hr2⟩ := neutral_steps ⟨true, true, true, true, true⟩
      ([Event.Xil_DCacheInvalidateRange .RxBuffer len] ++ rep) (by
        intro x hx2
        rcases List.mem_append.1 hx2 with hx2 | hx2
        · rw [List.mem_singleton.1 hx2]
          exact ⟨rfl, rfl, Or.inr rfl⟩
        · have h := report_excludes x (hrep x hx2)
          exact ⟨h.1, h.2.2.1, Or.inr rfl⟩)
    rw [e]
    refine ⟨?_, ?_⟩
    · rw [stepsOk_append, hoa, hfa, stepsOk_append, hst.1, hst.2, stepsOk_append, h1, h2,
        stepsOk_append, hx.1, hx.2, stepsOk_append, h3, h4, stepsOk_append, hy.1, hy.2, hr1]
      rfl
    · rw [sessionAfter, List.foldl_append, hfa, List.foldl_append, hst.2, List.foldl_append,
        h2, List.foldl_append, hx.2, List.foldl_append, h4, List.foldl_append, hy.2, hr2]
      simp [Session.phase, Progress.isComplete]

/-- From acceptance by the session machine to the step-by-step statement. -/
theorem session_steps_sound (t : List Event) (h : Session.idle.stepsOk t = true) :
    ∀ u e v, t = u ++ e :: v →
      ((sessionAfter (u ++ [e])).phase.rank = (sessionAfter u).phase.rank ∨
        (sessionAfter (u ++ [e])).phase.rank = (sessionAfter u).phase.rank + 1) ∧
      (isVerdict e = true → (sessionAfter u).phase = .Complete) := by
  intro u e v ht
  have hs := stepsOk_sound Session.idle t h u e v ht
  simp only [Session.stepOk, Bool.and_eq_true, Bool.or_eq_true, beq_iff_eq,
    Bool.not_eq_true'] at hs
  refine ⟨?_, ?_⟩
  · simpa [sessionAfter, List.foldl_append] using hs.1
  · intro hv
    rcases hs.2 with h2 | h2
    · rw [hv] at h2
      exact absurd h2 (by decide)
    · exact h2

theorem BareMetalDriver.main_session (env : Env) :
    Session.idle.stepsOk (traceOf (BareMetalDriver.main env)) = true ∧
    ((sessionAfter (traceOf (BareMetalDriver.main env))).phase = .Complete ↔
      completed (BareMetalDriver.main env) = true) := by
  rcases BareMetalDriver.main_form env with
    ⟨hc, h⟩ | ⟨pre, key, p, rep, hpre, -, hrep, -, -, hc, ht⟩
  · obtain ⟨h1, h2⟩ := neutral_steps Session.idle (traceOf (BareMetalDriver.main env))
      (fun e he =>
        have hx := setup_excludes e (h e he)
        ⟨hx.1, hx.2.2.1, Or.inl hx.2.2.2.2.2.2.2⟩)
    refine ⟨h1, ?_⟩
    rw [sessionAfter, h2, hc]
    simp [Session.phase, Session.idle]
  · rw [ht, hc]
    exact session_steps 64 _ rep p
      (fun e he =>
        have hx := BareMetalDriver.before_transfer_class pre key hpre e he
        ⟨hx.1, hx.2.2.1, hx.2.2.2.2⟩) hrep

theorem DmaAxisFifoTest.fifo_main_session (env : Env) :
    Session.idle.stepsOk (traceOf (DmaAxisFifoTest.main env)) = true ∧
    ((sessionAfter (traceOf (DmaAxisFifoTest.main env))).phase = .Complete ↔
      completed (DmaAxisFifoTest.main env) = true) := by
  obtain ⟨pre, hpre, ⟨hc, ht⟩ | ⟨key, p, rep, -, hrep, -, -, hc, ht⟩⟩ :=
    DmaAxisFifoTest.fifo_main_form env
  · obtain ⟨h1, h2⟩ := neutral_steps Session.idle (traceOf (DmaAxisFifoTest.main env))
      (fun e he => by
        rw [ht] at he
        have hx := DmaAxisFifoTest.fifo_before_transfer_class pre 0 hpre e
          (List.mem_append_left _ he)
        exact ⟨hx.1, hx.2.2.1, Or.inl hx.2.2.2⟩)
    refine ⟨h1, ?_⟩
    rw [sessionAfter, h2, hc]
    simp [Session.phase, Session.idle]
  · rw [ht, hc]
    exact session_steps DmaAxisFifoTest.MEM_SIZE _ rep p
      (fun e he =>
        have hx := DmaAxisFifoTest.fifo_before_transfer_class pre key hpre e he
        ⟨hx.1, hx.2.2.1, hx.2.2.2⟩) hrep

/-! ## C9: completion is reached only through both polling loops -/

theorem round_trip_phases (len : Nat) (r : Except St St) (a rep : List Event)
    (p : Progress)
    (ha : ∀ e ∈ a, isStart e = false ∧ isPoll e = false ∧ isVerdict e = false)
    (hrep : ∀ e ∈ rep, isReport e = true) (hv : ∃ v ∈ rep, isVerdict v = true)
    (hc : completed r = p.isComplete)
    (ht : traceOf r = a ++ transfer_events len p ++
      (if p.isComplete then [Event.Xil_DCacheInvalidateRange .RxBuffer len] ++ rep else [])) :
    ∃ a, (∀ e ∈ a, isStart e = false ∧ isPoll e = false ∧ isVerdict e = false) ∧
      ((completed r = false ∧ traceOf r = a) ∨
       (∃ n, completed r = false ∧ traceOf r = a ++ start_events len ++
          List.replicate n (Event.XAxiDma_Busy .XAXIDMA_DMA_TO_DEVICE true)) ∨
       (∃ n m, completed r = false ∧ traceOf r = a ++ start_events len ++
          List.replicate n (Event.XAxiDma_Busy .XAXIDMA_DMA_TO_DEVICE true) ++
          [Event.XAxiDma_Busy .XAXIDMA_DMA_TO_DEVICE false] ++
          List.replicate m (Event.XAxiDma_Busy .XAXIDMA_DEVICE_TO_DMA true)) ∨
       (∃ n m b, completed r = true ∧ traceOf r = a ++ start_events len ++
          finished_polls n m ++ [Event.Xil_DCacheInvalidateRange .RxBuffer len] ++ b ∧
          (∀ e ∈ b, isStart e = false ∧ isPoll e = false) ∧
          (∃ v ∈ b, isVerdict v = true))) := by
  refine ⟨a, ha, ?_⟩
  cases p with
  | send_busy n =>
    refine Or.inr (Or.inl ⟨n, by rw [hc]; rfl, ?_⟩)
    rw [ht]
    simp [transfer_events, start_events, send_poll_events, recv_poll_events,
      Progress.isComplete, List.append_assoc]
  | recv_busy n m =>
    refine Or.inr (Or.inr (Or.inl ⟨n, m, by rw [hc]; rfl, ?_⟩))
    rw [ht]
    simp [transfer_events, start_events, send_poll_events, recv_poll_events,
      Progress.isComplete, List.append_assoc]
  | complete n m =>
    refine Or.inr (Or.inr (Or.inr ⟨n, m, rep, by rw [hc]; rfl, ?_, ?_, hv⟩))
    · rw [ht, transfer_events_complete]
      simp [Progress.isComplete, List.append_assoc]
    · intro e he
      have h := report_excludes e (hrep e he)
      exact ⟨h.1, h.2.2.1⟩

/-- C9. For every environment, hence for every sequence of busy and not-busy
answers, the trace of either program has one of four forms, `a` being free of
transfer starts, busy polls and verdicts: (1) `a` alone, the run having
stopped before the transfers; (2) `a`, receive start, send start, and busy
answers of the send direction; (3) the same followed by the not-busy answer of
the send direction and busy answers of the receive direction; (4) `a`, receive
start, send start, `finished_polls n m`, the invalidate of `RxBuffer` and the
report `b`.  Only form (4) is a completed run, and only it contains the
post-transfer invalidate and a verdict, which come after a not-busy answer for
each direction, both polled after both starts.  Read through the session state
machine of the spec, every action of the trace keeps the state or moves it to
the next state of `Idle, ReceiveArmed, SendArmed, AwaitingCompletion,
Complete`, a verdict is printed only in `Complete`, and the trace ends in
`Complete` exactly when the run completed, which it does exactly when the
environment gives the answers the polling loops wait for. -/
theorem C9_complete_only_after_both_idle (env : Env) :
    (∃ a, (∀ e ∈ a, isStart e = false ∧ isPoll e = false ∧ isVerdict e = false) ∧
      ((completed (BareMetalDriver.main env) = false ∧
          traceOf (BareMetalDriver.main env) = a) ∨
       (∃ n, completed (BareMetalDriver.main env) = false ∧
          traceOf (BareMetalDriver.main env) = a ++ start_events 64 ++
            List.replicate n (Event.XAxiDma_Busy .XAXIDMA_DMA_TO_DEVICE true)) ∨
       (∃ n m, completed (BareMetalDriver.main env) = false ∧
          traceOf (BareMetalDriver.main env) = a ++ start_events 64 ++
            List.replicate n (Event.XAxiDma_Busy .XAXIDMA_DMA_TO_DEVICE true) ++
            [Event.XAxiDma_Busy .XAXIDMA_DMA_TO_DEVICE false] ++
            List.replicate m (Event.XAxiDma_Busy .XAXIDMA_DEVICE_TO_DMA true)) ∨
       (∃ n m b, completed (BareMetalDriver.main env) = true ∧
          traceOf (BareMetalDriver.main env) = a ++ start_events 64 ++
            finished_polls n m ++ [Event.Xil_DCacheInvalidateRange .RxBuffer 64] ++ b ∧
          (∀ e ∈ b, isStart e = false ∧ isPoll e = false) ∧
          (∃ v ∈ b, isVerdict v = true)))) ∧
    (∃ a, (∀ e ∈ a, isStart e = false ∧ isPoll e = false ∧ isVerdict e = false) ∧
      ((completed (DmaAxisFifoTest.main env) = false ∧
          traceOf (DmaAxisFifoTest.main env) = a) ∨
       (∃ n, completed (DmaAxisFifoTest.main env) = false ∧
          traceOf (DmaAxisFifoTest.main env) = a ++ start_events DmaAxisFifoTest.MEM_SIZE ++
            List.replicate n (Event.XAxiDma_Busy .XAXIDMA_DMA_TO_DEVICE true)) ∨
       (∃ n m, completed (DmaAxisFifoTest.main env) = false ∧
          traceOf (DmaAxisFifoTest.main env) = a ++ start_events DmaAxisFifoTest.MEM_SIZE ++
            List.replicate n (Event.XAxiDma_Busy .XAXIDMA_DMA_TO_DEVICE true) ++
            [Event.XAxiDma_Busy .XAXIDMA_DMA_TO_DEVICE false] ++
            List.replicate m (Event.XAxiDma_Busy .XAXIDMA_DEVICE_TO_DMA true)) ∨
       (∃ n m b, completed (DmaAxisFifoTest.main env) = true ∧
          traceOf (DmaAxisFifoTest.main env) = a ++ start_events DmaAxisFifoTest.MEM_SIZE ++
            finished_polls n m ++
            [Event.Xil_DCacheInvalidateRange .RxBuffer DmaAxisFifoTest.MEM_SIZE] ++ b ∧
          (∀ e ∈ b, isStart e = false ∧ isPoll e = false) ∧
          (∃ v ∈ b, isVerdict v = true)))) ∧
    (∀ u e v, traceOf (BareMetalDriver.main env) = u ++ e :: v →
      ((sessionAfter (u ++ [e])).phase.rank = (sessionAfter u).phase.rank ∨
        (sessionAfter (u ++ [e])).phase.rank = (sessionAfter u).phase.rank + 1) ∧
      (isVerdict e = true → (sessionAfter u).phase = .Complete)) ∧
    (∀ u e v, traceOf (DmaAxisFifoTest.main env) = u ++ e :: v →
      ((sessionAfter (u ++ [e])).phase.rank = (sessionAfter u).phase.rank ∨
        (sessionAfter (u ++ [e])).phase.rank = (sessionAfter u).phase.rank + 1) ∧
      (isVerdict e = true → (sessionAfter u).phase = .Complete)) ∧
    ((sessionAfter (traceOf (BareMetalDriver.main env))).phase = .Complete ↔
      completed (BareMetalDriver.main env) = true) ∧
    ((sessionAfter (traceOf (DmaAxisFifoTest.main env))).phase = .Complete ↔
      completed (DmaAxisFifoTest.main env) = true) ∧
    completed (BareMetalDriver.main env) = BareMetalDriver.answers_suffice env ∧
    completed (DmaAxisFifoTest.main env) = DmaAxisFifoTest.answers_suffice env := by
  refine ⟨?_, ?_,
    session_steps_sound _ (BareMetalDriver.main_session env).1,
    session_steps_sound _ (DmaAxisFifoTest.fifo_main_session env).1,
    (BareMetalDriver.main_session env).2, (DmaAxisFifoTest.fifo_main_session env).2,
    BareMetalDriver.main_completed env, DmaAxisFifoTest.fifo_main_completed env⟩
  · rcases BareMetalDriver.main_form env with
      ⟨hc, h⟩ | ⟨pre, key, p, rep, hpre, -, hrep, -, hv, hc, ht⟩
    · refine ⟨_, fun e he => ?_, Or.inl ⟨hc, rfl⟩⟩
      have hx := setup_excludes e (h e he)
      exact ⟨hx.1, hx.2.2.1, hx.2.2.2.2.2.2.2⟩
    · exact round_trip_phases 64 _ _ rep p
        (fun e he =>
          have hx := BareMetalDriver.before_transfer_class pre key hpre e he
          ⟨hx.1, hx.2.2.1, hx.2.2.2.2⟩)
        hrep hv hc ht
  · obtain ⟨pre, hpre, ⟨hc, ht⟩ | ⟨key, p, rep, -, hrep, -, hv, hc, ht⟩⟩ :=
      DmaAxisFifoTest.fifo_main_form env
    · refine ⟨_, fun e he => ?_, Or.inl ⟨hc, rfl⟩⟩
      rw [ht] at he
      have hx := DmaAxisFifoTest.fifo_before_transfer_class pre 0 hpre e
        (List.mem_append_left _ he)
      exact ⟨hx.1, hx.2.2.1, hx.2.2.2⟩
    · exact round_trip_phases DmaAxisFifoTest.MEM_SIZE _ _ rep p
        (fun e he =>
          have hx := DmaAxisFifoTest.fifo_before_transfer_class pre key hpre e he
          ⟨hx.1, hx.2.2.1, hx.2.2.2⟩)
        hrep hv hc ht

/-! ## C8: what runs between the return of the debug gate and the transfer -/

set_option maxRecDepth 100000 in
/-- C8, counterexample. In the run of bare_metal_driver.c on `sample_env` the
gate returns at position 18 of the trace and the next action, at position 19,
is the host write of `TxBuffer[0]` by the fill loop of `run_backpressure_test`,
not the start of the receive transfer. -/
theorem C8_gate_return_followed_by_buffer_write :
    (traceOf (BareMetalDriver.main sample_env))[18]? = some Event.gate_return ∧
    (traceOf (BareMetalDriver.main sample_env))[19]? = some (Event.hostWrite .TxBuffer 0) ∧
    isStart (Event.hostWrite .TxBuffer 0) = false := by
  decide

set_option maxRecDepth 100000 in
theorem BareMetalDriver.prepare_events_head :
    BareMetalDriver.prepare_events.head? = some (Event.hostWrite .TxBuffer 0) ∧
      BareMetalDriver.prepare_events.length = 130 := by
  decide

/-- C8, amended. In both programs the gate returns only after `inbyte` has
delivered a nonzero byte (followed by one console line of the gate itself), and
no transfer start, busy poll or other gate return precedes it.  In
dma_axis_fifo_vitis_test.c the action right after the gate's return is the
start of the receive transfer.  In bare_metal_driver.c the gate's return is
followed by the 130 buffer-preparation actions of `run_backpressure_test` (host
writes and the two cache-maintenance calls, beginning with the write of
`TxBuffer[0]`) and then by the start of the receive transfer.  A run in which
the gate does not return is stuck in a polling loop and starts no transfer. -/
theorem C8_gate_then_transfer (env : Env) :
    ((∃ a key b, key ≠ 0 ∧
        traceOf (DmaAxisFifoTest.main env) =
          a ++ [Event.inbyte key, Event.xil_printf, Event.gate_return,
            Event.XAxiDma_SimpleTransfer .RxBuffer 32 .XAXIDMA_DEVICE_TO_DMA] ++ b ∧
        (∀ e ∈ a, isGateReturn e = false ∧ isStart e = false ∧ isPoll e = false) ∧
        (∀ e ∈ b, isGateReturn e = false)) ∨
      (completed (DmaAxisFifoTest.main env) = false ∧
        ∀ e ∈ traceOf (DmaAxisFifoTest.main env),
          isGateReturn e = false ∧ isStart e = false)) ∧
    ((∃ a key mid b, key ≠ 0 ∧
        traceOf (BareMetalDriver.main env) =
          a ++ [Event.inbyte key, Event.xil_printf, Event.gate_return] ++ mid ++
            [Event.XAxiDma_SimpleTransfer .RxBuffer 64 .XAXIDMA_DEVICE_TO_DMA] ++ b ∧
        (∀ e ∈ a, isGateReturn e = false ∧ isStart e = false ∧ isPoll e = false) ∧
        (∀ e ∈ mid, isPrepare e = true) ∧
        mid.head? = some (Event.hostWrite .TxBuffer 0) ∧ mid.length = 130 ∧
        (∀ e ∈ b, isGateReturn e = false)) ∨
      (completed (BareMetalDriver.main env) = false ∧
        ∀ e ∈ traceOf (BareMetalDriver.main env),
          isGateReturn e = false ∧ isStart e = false)) := by
  constructor
  · obtain ⟨pre, hpre, ⟨hc, ht⟩ | ⟨key, p, rep, hkey, hrep, -, -, -, ht⟩⟩ :=
      DmaAxisFifoTest.fifo_main_form env
    · refine Or.inr ⟨hc, ?_⟩
      rw [ht]
      intro e he
      simp only [List.mem_append] at he
      rcases he with (he | he) | he
      · have h := init_excludes e (DmaAxisFifoTest.init_events_class.1 e he)
        exact ⟨h.2.2.2.2.1, h.1⟩
      · simp only [List.mem_cons, List.mem_singleton, List.mem_nil_iff, or_false] at he
        rcases he with rfl | rfl <;> simp [isGateReturn, isStart]
      · have h := setup_excludes e (hpre e he)
        exact ⟨h.2.2.2.2.1, h.1⟩
    · refine Or.inl ⟨DmaAxisFifoTest.init_events ++
          [Event.Xil_DCacheFlushRange .TxBuffer DmaAxisFifoTest.MEM_SIZE,
           Event.Xil_DCacheInvalidateRange .RxBuffer DmaAxisFifoTest.MEM_SIZE] ++ pre, key,
        [Event.XAxiDma_SimpleTransfer .TxBuffer 32 .XAXIDMA_DMA_TO_DEVICE] ++
          (send_poll_events p ++ recv_poll_events p) ++
          (if p.isComplete then
            [Event.Xil_DCacheInvalidateRange .RxBuffer DmaAxisFifoTest.MEM_SIZE] ++ rep
           else []), hkey, ?_, ?_, ?_⟩
      · rw [ht]
        simp [transfer_events, DmaAxisFifoTest.MEM_SIZE, List.append_assoc]
      · intro e he
        simp only [List.mem_append] at he
        rcases he with (he | he) | he
        · have h := init_excludes e (DmaAxisFifoTest.init_events_class.1 e he)
          exact ⟨h.2.2.2.2.1, h.1, h.2.2.1⟩
        · simp only [List.mem_cons, List.mem_singleton, List.mem_nil_iff, or_false] at he
          rcases he with rfl | rfl <;> simp [isGateReturn, isStart, isPoll]
        · have h := setup_excludes e (hpre e he)
          exact ⟨h.2.2.2.2.1, h.1, h.2.2.1⟩
      · intro e he
        simp only [List.mem_append] at he
        rcases he with (he | he) | he
        · rw [List.mem_singleton.1 he]; rfl
        · exact (poll_excludes e (polls_class p e (List.mem_append.2 he))).2.2.2.1
        · exact (tail_class _ p rep hrep e he).2.2.2.1
  · rcases BareMetalDriver.main_form env with
      ⟨hc, h⟩ | ⟨pre, key, p, rep, hpre, hkey, hrep, -, -, -, ht⟩
    · refine Or.inr ⟨hc, fun e he => ?_⟩
      have hx := setup_excludes e (h e he)
      exact ⟨hx.2.2.2.2.1, hx.1⟩
    · refine Or.inl ⟨pre, key, BareMetalDriver.prepare_events,
        [Event.XAxiDma_SimpleTransfer .TxBuffer 64 .XAXIDMA_DMA_TO_DEVICE] ++
          (send_poll_events p ++ recv_poll_events p) ++
          (if p.isComplete then [Event.Xil_DCacheInvalidateRange .RxBuffer 64] ++ rep
           else []), hkey, ?_, ?_, BareMetalDriver.prepare_events_class,
        BareMetalDriver.prepare_events_head.1, BareMetalDriver.prepare_events_head.2, ?_⟩
      · rw [ht]
        simp [transfer_events, List.append_assoc]
      · intro e he
        have hx := setup_excludes e (hpre e he)
        exact ⟨hx.2.2.2.2.1, hx.1, hx.2.2.1⟩
      · intro e he
        simp only [List.mem_append] at he
        rcases he with (he | he) | he
        · rw [List.mem_singleton.1 he]; rfl
        · exact (poll_excludes e (polls_class p e (List.mem_append.2 he))).2.2.2.1
        · exact (tail_class _ p rep hrep e he).2.2.2.1

/-! ## Buffer contents -/

theorem memcpy_succ (dst : Buf) (off : Nat) (src : List Nat) (n : Nat) (s : St) :
    memcpy dst off src (n + 1) s =
      store dst (off + n) (src.getD n 0) (memcpy dst off src n s) :=
  forLoop_succ n _ s

theorem memcpy_tx_length (off : Nat) (src : List Nat) (n : Nat) (s : St) :
    (memcpy .TxBuffer off src n s).TxBuffer.length = s.TxBuffer.length :=
  forLoop_inv (fun s => s.TxBuffer.length)
    (fun j => store .TxBuffer (off + j) (src.getD j 0))
    (fun _ _ => List.length_set _ _ _) n s

theorem memcpy_tx_getElem? (off : Nat) (src : List Nat) (n : Nat) (s : St) (k : Nat) :
    (memcpy .TxBuffer off src n s).TxBuffer[k]? =
      if off ≤ k ∧ k < off + n ∧ k < s.TxBuffer.length then some (src.getD (k - off) 0)
      else s.TxBuffer[k]? := by
  induction n with
  | zero =>
    have h : ¬ (off ≤ k ∧ k < off + 0 ∧ k < s.TxBuffer.length) := by omega
    rw [if_neg h]
    rfl
  | succ n ih =>
    rw [memcpy_succ]
    show ((memcpy .TxBuffer off src n s).TxBuffer.set (off + n) (src.getD n 0))[k]? = _
    rw [List.getElem?_set, memcpy_tx_length]
    by_cases hk : off + n = k
    · subst hk
      by_cases hl : off + n < s.TxBuffer.length
      · have h : off ≤ off + n ∧ off + n < off + (n + 1) ∧ off + n < s.TxBuffer.length := by
          omega
        rw [if_pos rfl, if_pos hl, if_pos h]
        simp
      · have h : ¬ (off ≤ off + n ∧ off + n < off + (n + 1) ∧
            off + n < s.TxBuffer.length) := by omega
        rw [if_pos rfl, if_neg hl, if_neg h]
        exact (List.getElem?_eq_none (by omega)).symm
    · rw [if_neg hk, ih]
      by_cases h1 : off ≤ k ∧ k < off + n ∧ k < s.TxBuffer.length
      · have h2 : off ≤ k ∧ k < off + (n + 1) ∧ k < s.TxBuffer.length := by omega
        rw [if_pos h1, if_pos h2]
      · have h2 : ¬ (off ≤ k ∧ k < off + (n + 1) ∧ k < s.TxBuffer.length) := by omega
        rw [if_neg h1, if_neg h2]

namespace BareMetalDriver

theorem fill_tx_unfold (pat : List Nat) (s : St) :
    fill_tx pat s = memcpy .TxBuffer 48 pat 16 (memcpy .TxBuffer 32 pat 16
      (memcpy .TxBuffer 16 pat 16 (memcpy .TxBuffer 0 pat 16 s))) := by
  have h : fill_tx pat s = forLoop (0 + 1 + 1 + 1 + 1)
      (fun i => memcpy .TxBuffer (i * 16) pat 16) s := rfl
  rw [h, forLoop_succ, forLoop_succ, forLoop_succ, forLoop_succ, forLoop_zero]

theorem fill_tx_length (pat : List Nat) (s : St) :
    (fill_tx pat s).TxBuffer.length = s.TxBuffer.length := by
  rw [fill_tx_unfold]
  simp only [memcpy_tx_length]

theorem fill_tx_getElem? (pat : List Nat) (s : St) (hs : s.TxBuffer.length = 128) (k : Nat) :
    (fill_tx pat s).TxBuffer[k]? =
      if k < 64 then some (pat.getD (k % 16) 0) else s.TxBuffer[k]? := by
  rw [fill_tx_unfold]
  simp only [memcpy_tx_getElem?, memcpy_tx_length, hs]
  by_cases h1 : k < 16
  · have e : k % 16 = k - 0 := by omega
    rw [e]
    simp [h1, show k < 64 by omega, show k < 128 by omega, show ¬ 48 ≤ k by omega,
      show ¬ 32 ≤ k by omega, show ¬ 16 ≤ k by omega]
  by_cases h2 : k < 32
  · have e : k % 16 = k - 16 := by omega
    rw [e]
    simp [show k < 64 by omega, show k < 128 by omega, show ¬ 48 ≤ k by omega,
      show ¬ 32 ≤ k by omega, show 16 ≤ k by omega, h2]
  by_cases h3 : k < 48
  · have e : k % 16 = k - 32 := by omega
    rw [e]
    simp [show k < 64 by omega, show k < 128 by omega, show ¬ 48 ≤ k by omega,
      show 32 ≤ k by omega, h3]
  by_cases h4 : k < 64
  · have e : k % 16 = k - 48 := by omega
    rw [e]
    simp [show k < 128 by omega, show 48 ≤ k by omega, h4]
  · simp [h4, show ¬ k < 48 + 16 by omega, show ¬ k < 32 + 16 by omega,
      show ¬ k < 16 + 16 by omega, show ¬ k < 16 by omega]

end BareMetalDriver

/-! ## C6 and C5: the outbound fill -/

set_option maxRecDepth 100000 in
theorem BareMetalDriver.fill_events_bound :
    ∀ e ∈ BareMetalDriver.fill_events, ∃ i, i < 64 ∧ e = Event.hostWrite .TxBuffer i := by
  decide

/-- C6. For every 16-byte pattern and every content of the 128-byte `TxBuffer`,
the fill loop of `run_backpressure_test` leaves `TxBuffer[k] = pattern[k mod 16]`
for every `k < 64`, leaves the bytes from 64 on unchanged, keeps the length at
128, and performs only host writes of `TxBuffer` at indices below 64, within
the capacity of 128. -/
theorem C6_fill_reproduces_pattern (pat : List Nat) (s : St)
    (hp : pat.length = 16) (hs : s.TxBuffer.length = 128) :
    (∀ k, k < 64 → (BareMetalDriver.fill_tx pat s).TxBuffer[k]? = pat[k % 16]?) ∧
    (∀ k, 64 ≤ k → (BareMetalDriver.fill_tx pat s).TxBuffer[k]? = s.TxBuffer[k]?) ∧
    (BareMetalDriver.fill_tx pat s).TxBuffer.length = 128 ∧
    (∃ ws, (BareMetalDriver.fill_tx pat s).trace = s.trace ++ ws ∧
      ∀ e ∈ ws, ∃ i, i < 64 ∧ i < 128 ∧ e = Event.hostWrite .TxBuffer i) := by
  refine ⟨?_, ?_, ?_, BareMetalDriver.fill_events, BareMetalDriver.fill_tx_trace pat s, ?_⟩
  · intro k hk
    rw [BareMetalDriver.fill_tx_getElem? pat s hs, if_pos hk]
    have hlt : k % 16 < pat.length := by omega
    rw [List.getD_eq_getElem?_getD, List.getElem?_eq_getElem hlt]
    rfl
  · intro k hk
    rw [BareMetalDriver.fill_tx_getElem? pat s hs, if_neg (by omega)]
  · rw [BareMetalDriver.fill_tx_length, hs]
  · intro e he
    obtain ⟨i, hi, rfl⟩ := BareMetalDriver.fill_events_bound e he
    exact ⟨i, hi, by omega, rfl⟩

set_option maxRecDepth 100000 in
/-- C6, witness: the fill of the zero-initialised buffer with the block
`00 11 22 ... FF`. -/
theorem C6_fill_reproduces_pattern_witness :
    ((List.range 16).map (fun i => 0x11 * i)).length = 16 ∧
    (boot sample_env).TxBuffer.length = 128 ∧
    (∀ k, k < 64 → (BareMetalDriver.fill_tx ((List.range 16).map (fun i => 0x11 * i))
      (boot sample_env)).TxBuffer[k]? = ((List.range 16).map (fun i => 0x11 * i))[k % 16]?) :=
  ⟨by decide, by decide,
    (C6_fill_reproduces_pattern ((List.range 16).map (fun i => 0x11 * i)) (boot sample_env)
      (by decide) (by decide)).1⟩

set_option maxRecDepth 100000 in
/-- C5, the code at its only run. Started from zero-initialised buffers,
bare_metal_driver.c returns with the first 64 bytes of `TxBuffer`, the bytes it
handed to the send transfer, equal to `FF EE DD ... 11 00` four times: byte `k`
is `0x11 * (15 - k mod 16)`.  Byte 0 is `0xFF`, where the plaintext block
`00 11 22 ... FF` has `0x00`. -/
theorem C5_outbound_bytes_are_reversed_block :
    completed (BareMetalDriver.main sample_env) = true ∧
    (stateOf (BareMetalDriver.main sample_env)).TxBuffer.take 64 =
      (List.range 64).map (fun k => 0x11 * (15 - k % 16)) ∧
    (BareMetalDriver.fill_tx BareMetalDriver.pattern (boot sample_env)).TxBuffer.take 64 =
      (List.range 64).map (fun k => 0x11 * (15 - k % 16)) ∧
    (stateOf (BareMetalDriver.main sample_env)).TxBuffer[0]? = some 0xFF ∧
    0xFF ≠ 0x11 * (0 % 16) ∧
    Event.XAxiDma_SimpleTransfer .TxBuffer 64 .XAXIDMA_DMA_TO_DEVICE ∈
      traceOf (BareMetalDriver.main sample_env) := by
  decide

/-! ## C7: clearing the inbound buffer -/

theorem memcmp_rx_iff (s : St) (off : Nat) (g : List Nat) (hg : g.length = 16)
    (h : off + 16 ≤ s.RxBuffer.length) :
    memcmp_eq .RxBuffer off g 16 s = true ↔ (s.RxBuffer.drop off).take 16 = g := by
  simp only [memcmp_eq, load, List.all_eq_true, List.mem_range, beq_iff_eq]
  constructor
  · intro hall
    apply List.ext_getElem?
    intro j
    rw [List.getElem?_take]
    by_cases hj : j < 16
    · have h1 : off + j < s.RxBuffer.length := by omega
      have h2 : j < g.length := by omega
      have h3 := hall j hj
      rw [List.getD_eq_getElem?_getD, List.getD_eq_getElem?_getD,
        List.getElem?_eq_getElem h1, List.getElem?_eq_getElem h2] at h3
      simp only [Option.getD_some] at h3
      rw [if_pos hj, List.getElem?_drop, List.getElem?_eq_getElem h1,
        List.getElem?_eq_getElem h2, h3]
    · rw [if_neg hj]
      exact (List.getElem?_eq_none (by omega)).symm
  · intro heq j hj
    rw [← heq, List.getD_eq_getElem?_getD, List.getD_eq_getElem?_getD, List.getElem?_take,
      if_pos hj, List.getElem?_drop]

set_option maxRecDepth 100000 in
/-- C4, counterexample. In the run of bare_metal_driver.c on `sample_env` the
device returns `gold_original` as block 0; the 16 bytes `RxBuffer[0..15]` equal
`gold_original`, a member of the expected set, and the verdict reported for
block 0 is FAIL. -/
theorem C4_gold_original_block_reported_fail :
    completed (BareMetalDriver.main sample_env) = true ∧
    (stateOf (BareMetalDriver.main sample_env)).RxBuffer.take 16 =
      BareMetalDriver.gold_original ∧
    BareMetalDriver.gold_original ∈
      [BareMetalDriver.gold_original, BareMetalDriver.gold_reversed] ∧
    Event.block_result 0 false ∈ traceOf (BareMetalDriver.main sample_env) ∧
    Event.block_result 0 true ∉ traceOf (BareMetalDriver.main sample_env) := by
  decide

/-- C4, amended. For every content of the 128-byte `RxBuffer` and every block
index `i < 4`, the verdict `run_backpressure_test` prints for block `i` (the
last action of the loop body) is PASS if and only if the 16 bytes
`RxBuffer[16*i .. 16*i+15]` equal `gold_reversed`, the one candidate the code
compares with; a block equal to `gold_original` is reported FAIL; and the
verdict for block `i` is the same for any two buffer contents that agree on
those 16 bytes. -/
theorem C4_block_verdict (s : St) (i : Nat) (hi : i < 4) (hs : s.RxBuffer.length = 128) :
    (BareMetalDriver.block_match i s = true ↔
      (s.RxBuffer.drop (i * 16)).take 16 = BareMetalDriver.gold_reversed) ∧
    (BareMetalDriver.report_block i s).trace.getLast? =
      some (Event.block_result i (BareMetalDriver.block_match i s)) ∧
    ((s.RxBuffer.drop (i * 16)).take 16 = BareMetalDriver.gold_original →
      BareMetalDriver.block_match i s = false) ∧
    (∀ s2 : St, s2.RxBuffer.length = 128 →
      (s2.RxBuffer.drop (i * 16)).take 16 = (s.RxBuffer.drop (i * 16)).take 16 →
      BareMetalDriver.block_match i s2 = BareMetalDriver.block_match i s) := by
  have hiff : ∀ s2 : St, s2.RxBuffer.length = 128 →
      (BareMetalDriver.block_match i s2 = true ↔
        (s2.RxBuffer.drop (i * 16)).take 16 = BareMetalDriver.gold_reversed) :=
    fun s2 h2 => memcmp_rx_iff s2 (i * 16) BareMetalDriver.gold_reversed rfl (by omega)
  refine ⟨hiff s hs, ?_, ?_, ?_⟩
  · rw [BareMetalDriver.report_block_trace, BareMetalDriver.report_block_events,
      ← List.append_assoc, List.getLast?_concat]
  · intro h
    cases hb : BareMetalDriver.block_match i s with
    | false => rfl
    | true =>
      have h2 := (hiff s hs).1 hb
      rw [h] at h2
      exact absurd h2 (by decide)
  · intro s2 h2 heq
    cases hb : BareMetalDriver.block_match i s with
    | true =>
      exact (hiff s2 h2).2 (heq.trans ((hiff s hs).1 hb))
    | false =>
      cases hb2 : BareMetalDriver.block_match i s2 with
      | false => rfl
      | true =>
        have h3 := (hiff s hs).2 (heq.symm.trans ((hiff s2 h2).1 hb2))
        rw [hb] at h3
        exact absurd h3 (by decide)

set_option maxRecDepth 100000 in
/-- C4, witness: block 1 of the buffer the device filled in the run on
`sample_env`, which holds `gold_reversed` and is reported PASS. -/
theorem C4_block_verdict_witness :
    1 < 4 ∧ (stateOf (BareMetalDriver.main sample_env)).RxBuffer.length = 128 ∧
    (BareMetalDriver.block_match 1 (stateOf (BareMetalDriver.main sample_env)) = true ↔
      ((stateOf (BareMetalDriver.main sample_env)).RxBuffer.drop (1 * 16)).take 16 =
        BareMetalDriver.gold_reversed) :=
  ⟨by decide, by decide,
    (C4_block_verdict (stateOf (BareMetalDriver.main sample_env)) 1 (by decide)
      (by decide)).1⟩

/-! ## C10: the two expected blocks -/

/-- C10. `gold_original` is the 16 bytes `c8a331ff8edd3db175e1545dbefb760b`,
`gold_reversed` is the 16 bytes `0b76fbbe5d54e175b13ddd8eff31a3c8`, each is the
reversal of the other, and `gold_reversed[i] = gold_original[15 - i]` for every
`i` in `0..15`. -/
theorem C10_gold_blocks_are_reversals :
    BareMetalDriver.gold_original = block_of_hex 0xc8a331ff8edd3db175e1545dbefb760b ∧
    BareMetalDriver.gold_reversed = block_of_hex 0x0b76fbbe5d54e175b13ddd8eff31a3c8 ∧
    BareMetalDriver.gold_reversed = BareMetalDriver.gold_original.reverse ∧
    BareMetalDriver.gold_reversed.reverse = BareMetalDriver.gold_original ∧
    BareMetalDriver.gold_original.length = 16 ∧ BareMetalDriver.gold_reversed.length = 16 ∧
    (∀ i : Fin 16, BareMetalDriver.gold_reversed[i.val]? =
      BareMetalDriver.gold_original[15 - i.val]?) := by
  decide

end AesDma
